import Mathlib

/-!
Verification development for the `loxer` tree-walking Lox interpreter
(Rust sources: `token.rs`, `scanner.rs`, `parser.rs`, `resolver.rs`,
`interpreter.rs`, `lox_error.rs`).

The Rust code is shallowly embedded: each Rust function becomes an
executable Lean definition over explicit state; iterator consumption
becomes explicit list passing; `Result` becomes `Except`; a Rust panic
(`unwrap` on `None`, `todo!`, arithmetic underflow with debug
assertions) is a distinguished `fatal` outcome.

Machine doubles (`f64`) are modelled by `F64`: either `nan` or an exact
rational.  IEEE equality semantics are kept (NaN compares unequal to
everything, including itself); IEEE rounding of decimal literals is
idealized to exact rationals, which no statement below depends on.
-/

/-- Model of `f64` adequate for the equality-sensitive claims: a NaN
value plus exact finite values. -/
inductive F64 where
  | nan
  | fin (q : ℚ)
  deriving DecidableEq, Repr

/-- IEEE `==` on doubles as used by Rust `PartialEq for f64`:
NaN is unequal to everything (including itself); finite values compare
by value. -/
def feq : F64 → F64 → Bool
  | .nan, _ => false
  | _, .nan => false
  | .fin a, .fin b => a = b

theorem feq_symm (a b : F64) : feq a b = feq b a := by
  cases a <;> cases b <;> (first | rfl | (simp [feq]; exact eq_comm))

theorem feq_fin_refl (q : ℚ) : feq (.fin q) (.fin q) = true := by simp [feq]

/-- `TokenType` from `token.rs` (payload-bearing kinds: `Identifier`,
`String`, `Number`). Constructor names are lowercased, with a trailing
underscore where the Rust name is a Lean keyword. -/
inductive TokenType where
  | leftParen | rightParen | leftBrace | rightBrace
  | comma | colon | dot | minus | plus | questionMark | semicolon | slash | star
  | bang | bangEqual | equal | equalEqual
  | greater | greaterEqual | less | lessEqual
  | identifier (s : String)
  | string (s : String)
  | number (n : F64)
  | and | class_ | else_ | false_ | fun_ | for_ | if_ | nil | or
  | print | return_ | super | this | true_ | var | while_
  | eof
  deriving DecidableEq, Repr

/-- The `#[derive(PartialEq)]` equality on `TokenType`: equal variant
tags and equal payloads, where the `Number` payload is compared with
`f64` IEEE equality. -/
def tokenTypeEq : TokenType → TokenType → Bool
  | .identifier a, .identifier b => a = b
  | .string a, .string b => a = b
  | .number a, .number b => feq a b
  | .leftParen, .leftParen => true
  | .rightParen, .rightParen => true
  | .leftBrace, .leftBrace => true
  | .rightBrace, .rightBrace => true
  | .comma, .comma => true
  | .colon, .colon => true
  | .dot, .dot => true
  | .minus, .minus => true
  | .plus, .plus => true
  | .questionMark, .questionMark => true
  | .semicolon, .semicolon => true
  | .slash, .slash => true
  | .star, .star => true
  | .bang, .bang => true
  | .bangEqual, .bangEqual => true
  | .equal, .equal => true
  | .equalEqual, .equalEqual => true
  | .greater, .greater => true
  | .greaterEqual, .greaterEqual => true
  | .less, .less => true
  | .lessEqual, .lessEqual => true
  | .and, .and => true
  | .class_, .class_ => true
  | .else_, .else_ => true
  | .false_, .false_ => true
  | .fun_, .fun_ => true
  | .for_, .for_ => true
  | .if_, .if_ => true
  | .nil, .nil => true
  | .or, .or => true
  | .print, .print => true
  | .return_, .return_ => true
  | .super, .super => true
  | .this, .this => true
  | .true_, .true_ => true
  | .var, .var => true
  | .while_, .while_ => true
  | .eof, .eof => true
  | _, _ => false

/-- `core::mem::discriminant` of a `TokenType`, in declaration order.
The manual `Hash` impl in `token.rs` feeds exactly this discriminant to
the hasher, so two kinds hash identically iff their discriminants are
equal; we therefore take the discriminant itself as the hash. -/
def tokenTypeHash : TokenType → Nat
  | .leftParen => 0
  | .rightParen => 1
  | .leftBrace => 2
  | .rightBrace => 3
  | .comma => 4
  | .colon => 5
  | .dot => 6
  | .minus => 7
  | .plus => 8
  | .questionMark => 9
  | .semicolon => 10
  | .slash => 11
  | .star => 12
  | .bang => 13
  | .bangEqual => 14
  | .equal => 15
  | .equalEqual => 16
  | .greater => 17
  | .greaterEqual => 18
  | .less => 19
  | .lessEqual => 20
  | .identifier _ => 21
  | .string _ => 22
  | .number _ => 23
  | .and => 24
  | .class_ => 25
  | .else_ => 26
  | .false_ => 27
  | .fun_ => 28
  | .for_ => 29
  | .if_ => 30
  | .nil => 31
  | .or => 32
  | .print => 33
  | .return_ => 34
  | .super => 35
  | .this => 36
  | .true_ => 37
  | .var => 38
  | .while_ => 39
  | .eof => 40

/-- `Token` from `token.rs`. -/
structure Token where
  token_type : TokenType
  lexeme : String
  line : Nat
  deriving DecidableEq, Repr

/-- C5 counterexample: the claim says two `Identifier` kinds with
different payloads compare equal; under the derived `PartialEq` of
`token.rs` they compare unequal. -/
theorem tokenType_identifier_payload_eq_refuted :
    tokenTypeEq (.identifier "a") (.identifier "b") = false := by decide

/-- C5 (amended): hashing on `kind` uses the variant tag only — the
payload-bearing kinds with different payloads hash identically — but
equality is the derived `PartialEq`, which compares payloads as well, so
`Identifier`/`String`/`Number` kinds with different payloads compare
unequal. -/
theorem tokenType_eq_hash_characterization :
    (∀ s t : String, tokenTypeHash (.identifier s) = tokenTypeHash (.identifier t))
    ∧ (∀ s t : String, tokenTypeHash (.string s) = tokenTypeHash (.string t))
    ∧ (∀ a b : F64, tokenTypeHash (.number a) = tokenTypeHash (.number b))
    ∧ tokenTypeEq (.identifier "a") (.identifier "b") = false
    ∧ tokenTypeEq (.string "a") (.string "b") = false
    ∧ tokenTypeEq (.number (.fin 1)) (.number (.fin 2)) = false :=
  ⟨fun _ _ => rfl, fun _ _ => rfl, fun _ _ => rfl, by decide, by decide, by decide⟩

/-- `ParseErrorCause` from `lox_result.rs` (file absent from the sources;
shape taken from its constructor calls `ParseErrorCause::new(line,
lexeme, message)` in `scanner.rs`/`parser.rs`). -/
structure ParseErrorCause where
  line : Nat
  lexeme : Option String
  message : String
  deriving DecidableEq, Repr

/-- Scanner state: current source line, tokens produced so far, lexical
errors accumulated so far (fields `line`/`tokens`/`errors` of
`Scanner`). The unconsumed character stream is passed separately. -/
structure ScanState where
  line : Nat
  tokens : List Token
  errors : List ParseErrorCause
  deriving DecidableEq, Repr

def pushTok (st : ScanState) (t : Token) : ScanState :=
  { st with tokens := st.tokens ++ [t] }

def pushScanErr (st : ScanState) (c : ParseErrorCause) : ScanState :=
  { st with errors := st.errors ++ [c] }

/-- The `//` line-comment loop in `scan_token`: consume characters up to
and including the next newline (incrementing the line counter), or to
end of input. -/
def scanLineComment : List Char → Nat → List Char × Nat
  | [], line => ([], line)
  | c :: rest, line =>
    if c = '\n' then (rest, line + 1) else scanLineComment rest line

/-- The string-literal loop in `scan_token`: accumulate characters until
the closing quote (`some lexeme`) or end of input (`none`), incrementing
the line counter at each newline (newlines are kept in the lexeme). -/
def scanStringLit : List Char → Nat → List Char → Option (List Char) × List Char × Nat
  | [], line, _ => (none, [], line)
  | c :: rest, line, acc =>
    if c = '"' then (some acc, rest, line)
    else scanStringLit rest (if c = '\n' then line + 1 else line) (acc ++ [c])

/-- The digit-consuming loop (`next_if(|c| c.is_ascii_digit())`). -/
def takeDigits (cs : List Char) : List Char × List Char :=
  (cs.takeWhile Char.isDigit, cs.dropWhile Char.isDigit)

/-- The identifier-continuation loop
(`next_if(|c| c.is_ascii_alphanumeric() || c == '_')`). -/
def takeIdentChars (cs : List Char) : List Char × List Char :=
  (cs.takeWhile (fun c => c.isAlphanum || c = '_'),
   cs.dropWhile (fun c => c.isAlphanum || c = '_'))

/-- `str::parse::<f64>` on the digit strings the scanner builds
(`digits` or `digits.digits` or `digits.`), idealized to an exact
rational; no claim depends on IEEE rounding of literals. -/
def f64OfChars (cs : List Char) : F64 :=
  let ipart := cs.takeWhile Char.isDigit
  let ival : Nat := ipart.foldl (fun acc c => 10 * acc + (c.toNat - '0'.toNat)) 0
  match cs.dropWhile Char.isDigit with
  | '.' :: frac =>
    let fval : Nat := frac.foldl (fun acc c => 10 * acc + (c.toNat - '0'.toNat)) 0
    .fin ((ival : ℚ) + (fval : ℚ) / (10 : ℚ) ^ frac.length)
  | _ => .fin (ival : ℚ)

/-- `Scanner::scan_block_comment`. Result `(some rest, line)` is the
`Ok(())` return with the unconsumed source and updated line counter;
`(none, line)` is `Err(())` (end of input, the source exhausted). Inside
the comment, after a `/` or a `*` the next character is consumed
unconditionally (`self.source.next()`), recursing into a nested comment
on `/*` and returning on `*/`. The `Nat` fuel only bounds recursion
depth; every recursive call is on a strictly shorter list, so fuel
`length + 1` (what the caller passes) never runs out. -/
def scan_block_comment : Nat → List Char → Nat → Option (List Char) × Nat
  | 0, _, line => (none, line)
  | _ + 1, [], line => (none, line)
  | f + 1, c :: rest, line =>
    if c = '\n' then scan_block_comment f rest (line + 1)
    else if c = '/' then
      match rest with
      | [] => scan_block_comment f [] line
      | c2 :: rest2 =>
        if c2 = '*' then
          match scan_block_comment f rest2 line with
          | (some r, l) => scan_block_comment f r l
          | (none, l) => (none, l)
        else scan_block_comment f rest2 line
    else if c = '*' then
      match rest with
      | [] => scan_block_comment f [] line
      | c2 :: rest2 =>
        if c2 = '/' then (some rest2, line) else scan_block_comment f rest2 line
    else scan_block_comment f rest line

/-- The keyword table of `scan_token`. -/
def keywords : List (String × TokenType) :=
  [("and", .and), ("class", .class_), ("else", .else_), ("false", .false_),
   ("for", .for_), ("fun", .fun_), ("if", .if_), ("nil", .nil),
   ("or", .or), ("print", .print), ("return", .return_), ("super", .super),
   ("this", .this), ("true", .true_), ("var", .var), ("while", .while_)]

/-- `Scanner::scan_token`: dispatch on one consumed character `ch`, with
`rest` the yet-unconsumed source; returns the remaining source and the
updated scanner state. -/
def scan_token (ch : Char) (rest : List Char) (st : ScanState) : List Char × ScanState :=
  if ch = '(' then (rest, pushTok st ⟨.leftParen, "(", st.line⟩)
  else if ch = ')' then (rest, pushTok st ⟨.rightParen, ")", st.line⟩)
  else if ch = '{' then (rest, pushTok st ⟨.leftBrace, "\x7b", st.line⟩)
  else if ch = '}' then (rest, pushTok st ⟨.rightBrace, "\x7d", st.line⟩)
  else if ch = ',' then (rest, pushTok st ⟨.comma, ",", st.line⟩)
  else if ch = '.' then (rest, pushTok st ⟨.dot, ".", st.line⟩)
  else if ch = '-' then (rest, pushTok st ⟨.minus, "-", st.line⟩)
  else if ch = '+' then (rest, pushTok st ⟨.plus, "+", st.line⟩)
  else if ch = ':' then (rest, pushTok st ⟨.colon, ":", st.line⟩)
  else if ch = ';' then (rest, pushTok st ⟨.semicolon, ";", st.line⟩)
  else if ch = '*' then (rest, pushTok st ⟨.star, "*", st.line⟩)
  else if ch = '?' then (rest, pushTok st ⟨.questionMark, "?", st.line⟩)
  else if ch = '!' then
    match rest with
    | '=' :: rest2 => (rest2, pushTok st ⟨.bangEqual, "!=", st.line⟩)
    | _ => (rest, pushTok st ⟨.bang, "!", st.line⟩)
  else if ch = '=' then
    match rest with
    | '=' :: rest2 => (rest2, pushTok st ⟨.equalEqual, "==", st.line⟩)
    | _ => (rest, pushTok st ⟨.equal, "=", st.line⟩)
  else if ch = '<' then
    match rest with
    | '=' :: rest2 => (rest2, pushTok st ⟨.lessEqual, "<=", st.line⟩)
    | _ => (rest, pushTok st ⟨.less, "<", st.line⟩)
  else if ch = '>' then
    match rest with
    | '=' :: rest2 => (rest2, pushTok st ⟨.greaterEqual, ">=", st.line⟩)
    | _ => (rest, pushTok st ⟨.greater, ">", st.line⟩)
  else if ch = '/' then
    match rest with
    | '/' :: rest2 =>
      let (r, l) := scanLineComment rest2 st.line
      (r, { st with line := l })
    | '*' :: rest2 =>
      match scan_block_comment (rest2.length + 1) rest2 st.line with
      | (some r, l) => (r, { st with line := l })
      | (none, l) =>
        ([], pushScanErr { st with line := l } ⟨l, none, "Unterminated block comment."⟩)
    | _ => (rest, pushTok st ⟨.slash, "/", st.line⟩)
  else if ch = ' ' ∨ ch = '\r' ∨ ch = '\t' then (rest, st)
  else if ch = '\n' then (rest, { st with line := st.line + 1 })
  else if ch = '"' then
    match scanStringLit rest st.line [] with
    | (some lex, r, l) =>
      (r, pushTok { st with line := l } ⟨.string (String.mk lex), String.mk lex, l⟩)
    | (none, r, l) =>
      (r, pushScanErr { st with line := l } ⟨l, none, "Unterminated string."⟩)
  else if ch.isDigit then
    let (ds, r1) := takeDigits rest
    let char_num := ch :: ds
    match r1 with
    | '.' :: r2 =>
      let char_num2 := char_num ++ ['.']
      match r2 with
      | c :: _ =>
        if c.isDigit then
          let (ds2, r3) := takeDigits r2
          (r3, pushTok st ⟨.number (f64OfChars (char_num2 ++ ds2)),
                           String.mk (char_num2 ++ ds2), st.line⟩)
        else
          (r2, pushTok (pushTok st ⟨.number (f64OfChars char_num2),
                                    String.mk char_num2, st.line⟩)
                ⟨.dot, ".", st.line⟩)
      | [] =>
        (r2, pushTok (pushTok st ⟨.number (f64OfChars char_num2),
                                  String.mk char_num2, st.line⟩)
              ⟨.dot, ".", st.line⟩)
    | _ => (r1, pushTok st ⟨.number (f64OfChars char_num), String.mk char_num, st.line⟩)
  else if ch.isAlpha ∨ ch = '_' then
    let (cs, r) := takeIdentChars rest
    let lexeme := String.mk (ch :: cs)
    match keywords.lookup lexeme with
    | some t => (r, pushTok st ⟨t, lexeme, st.line⟩)
    | none => (r, pushTok st ⟨.identifier lexeme, lexeme, st.line⟩)
  else (rest, pushScanErr st ⟨st.line, none, "Unexpected character."⟩)

/-- The `while let Some(ch) = self.source.next()` loop of `scan_tokens`.
Each iteration consumes at least the dispatched character, so fuel equal
to the initial source length never runs out. -/
def scanLoop : Nat → List Char → ScanState → ScanState
  | _, [], st => st
  | 0, _ :: _, st => st
  | f + 1, ch :: rest, st =>
    let (r, st2) := scan_token ch rest st
    scanLoop f r st2

/-- The scanner state after the main loop of `scan_tokens` (before the
`Eof` push and the error check). -/
def scanFinal (cs : List Char) : ScanState := scanLoop cs.length cs ⟨1, [], []⟩

/-- `Scanner::scan_tokens`: run the loop over the whole source, push a
final `Eof` token, then return the tokens if no error was accumulated
and otherwise a `ParseError` carrying all accumulated causes. -/
def scan_tokens (cs : List Char) : Except (List ParseErrorCause) (List Token) :=
  let st := pushTok (scanFinal cs) ⟨.eof, "", (scanFinal cs).line⟩
  if st.errors = [] then .ok st.tokens else .error st.errors

instance {ε α : Type} [DecidableEq ε] [DecidableEq α] : DecidableEq (Except ε α) := fun x y =>
  match x, y with
  | .ok a, .ok b => decidable_of_iff (a = b) (by simp)
  | .error a, .error b => decidable_of_iff (a = b) (by simp)
  | .ok _, .error _ => isFalse (by simp)
  | .error _, .ok _ => isFalse (by simp)

/-- C6 counterexample: the claim states that `/* **/`, whose character
stream contains a closing `*/`, is scanned without error; the scanner
instead reports it as an unterminated block comment, because after the
first inner `*` it unconditionally consumes the following `*`, so the
final `*/` is never recognized. -/
theorem block_comment_star_star_slash_errors :
    scan_tokens "/* **/".toList =
      .error [⟨1, none, "Unterminated block comment."⟩] := by decide

/-- C6 (amended): `/*` opens a block comment scanned by
`scan_block_comment`, which supports nesting but is not plain
depth-counting: inside a comment, after reading `/` it unconditionally
consumes the next character and recurses into a nested comment if that
character is `*`; after reading `*` it unconditionally consumes the next
character and closes the comment if that character is `/`; reaching end
of input first is the lexical error `Unterminated block comment.` and
the comment produces no token. Hence `/* */` and the nested
`/*/* hi */ hello */` scan without error, while `/* **/` is reported
unterminated because its second `*` is consumed as the character
following the first `*`. -/
theorem block_comment_scan_characterization :
    scan_tokens "/* */".toList = .ok [⟨.eof, "", 1⟩]
    ∧ scan_tokens "/*/* hi */ hello */".toList = .ok [⟨.eof, "", 1⟩]
    ∧ scan_tokens "/* **/".toList = .error [⟨1, none, "Unterminated block comment."⟩]
    ∧ scan_tokens "/*".toList = .error [⟨1, none, "Unterminated block comment."⟩]
    ∧ scan_tokens "/* \n */".toList = .ok [⟨.eof, "", 2⟩] := by
  refine ⟨by decide, by decide, by decide, by decide, by decide⟩

/-- C8: `scan_tokens` never stops at the first lexical error: it scans
the whole source accumulating errors, always appends a final `Eof` token
after all produced tokens, returns the token list exactly when no error
occurred, and otherwise returns a `ParseError` whose causes are the
accumulated lexical errors in source order (the concrete two-error
source `"@\n#"` yields both `Unexpected character.` causes, line 1
before line 2, while still having scanned past the first error). -/
theorem scan_tokens_error_accumulation :
    (∀ cs : List Char,
        (scan_tokens cs = .ok ((scanFinal cs).tokens ++ [⟨.eof, "", (scanFinal cs).line⟩])
          ∧ (scanFinal cs).errors = [])
      ∨ (scan_tokens cs = .error (scanFinal cs).errors ∧ (scanFinal cs).errors ≠ []))
    ∧ scan_tokens "@\n#".toList =
        .error [⟨1, none, "Unexpected character."⟩, ⟨2, none, "Unexpected character."⟩]
    ∧ scan_tokens "@ 1;".toList =
        .error [⟨1, none, "Unexpected character."⟩]
    ∧ scan_tokens "1;".toList =
        .ok [⟨.number (.fin 1), "1", 1⟩, ⟨.semicolon, ";", 1⟩, ⟨.eof, "", 1⟩] := by
  refine ⟨?_, by decide, by decide, by decide⟩
  intro cs
  by_cases h : (scanFinal cs).errors = []
  · exact Or.inl ⟨by simp [scan_tokens, pushTok, h], h⟩
  · exact Or.inr ⟨by simp [scan_tokens, pushTok, h], h⟩

/-- The one registered native callable (`functions.rs`, absent; spec
§4.6: `clock`). -/
inductive NativeKind where
  | clock
  deriving DecidableEq, Repr

/-- `LoxClass` from `lox_class.rs` (file absent). Modelled from the
spec: `{ name, superclass?, methods: name → function }`; the superclass
is held by value (`Option<Box<LoxClass>>`), and each method is a
`LoxFunction` referenced here by its index into the interpreter's
function heap (Rust holds `LoxFunction` values behind shared `Rc`
state; the heap index models that sharing). -/
inductive LoxClass where
  | mk (name : String) (superclass : Option LoxClass) (methods : List (String × Nat))

/-- Runtime value type `Literal` from `expr.rs` (file absent). Variants
are those matched in `interpreter.rs`: `Nil`, `Boolean`, `Number`,
`String`, `Identifier`, `Function`, `NativeFunction`, `Class`,
`Instance`. `Function` carries an index into the interpreter's function
heap (for `Rc<LoxFunction>`), `Instance` an index into the instance
heap (for `Rc<RefCell<LoxInstance>>`). -/
inductive Literal where
  | nil
  | boolean (b : Bool)
  | number (n : F64)
  | string (s : String)
  | identifier (s : String)
  | function (addr : Nat)
  | nativeFunction (name : String) (k : NativeKind)
  | classV (c : LoxClass)
  | instance_ (addr : Nat)

/-- `VariableExpr` from `expr.rs` (payload of `Expr::Variable`, also
used directly as the superclass slot of a class statement). -/
structure VariableExpr where
  name : Token
  deriving DecidableEq, Repr

/-- Expression AST from `expr.rs` (file absent; constructor shapes are
exactly the `XxxExpr::new` calls in `parser.rs`, flattened into
constructor fields). -/
inductive Expr where
  | assign (name : Token) (value : Expr)
  | binary (left : Expr) (operator : Token) (right : Expr)
  | call (callee : Expr) (paren : Token) (arguments : List Expr)
  | conditional (condition : Expr) (left : Expr) (right : Expr)
  | get (name : Token) (object : Expr)
  | grouping (expression : Expr)
  | literal (value : Literal)
  | logical (left : Expr) (operator : Token) (right : Expr)
  | set (object : Expr) (name : Token) (value : Expr)
  | super_ (keyword : Token) (method : Token)
  | this_ (keyword : Token)
  | unary (operator : Token) (right : Expr)
  | variable_ (name : Token)

/-- Statement AST from `stmt.rs` (file absent; constructor shapes are
the `XxxStmt::new` calls in `parser.rs`, flattened — in particular
`ClassStmt::new(name, methods, superclass)` keeps that field order and
`Stmt::Function`'s `FunctionStmt` payload is flattened into
name/params/body). -/
inductive Stmt where
  | block (statements : List Stmt)
  | class_ (name : Token) (methods : List Stmt) (superclass : Option VariableExpr)
  | expression (expr : Expr)
  | function (name : Token) (params : List Token) (body : List Stmt)
  | if_ (condition : Expr) (then_branch : Stmt) (else_branch : Option Stmt)
  | print (expr : Expr)
  | return_ (keyword : Token) (value : Option Expr)
  | var (name : Token) (initializer : Option Expr)
  | while_ (condition : Expr) (body : Stmt)

/-- `FunctionStmt` (the payload shared between `Stmt::Function` and
`LoxFunction::declaration`). -/
structure FunctionStmt where
  name : Token
  params : List Token
  body : List Stmt

/-- Derived `PartialEq` on `Token` (`token.rs`): fieldwise, with the
kind compared by `tokenTypeEq`. -/
def tokenEq (a b : Token) : Bool :=
  tokenTypeEq a.token_type b.token_type && a.lexeme = b.lexeme && a.line = b.line

mutual
/-- Structural equality on `LoxClass` values. -/
def loxClassBeq : LoxClass → LoxClass → Bool
  | .mk n1 s1 m1, .mk n2 s2 m2 => n1 = n2 && optClassBeq s1 s2 && m1 = m2

def optClassBeq : Option LoxClass → Option LoxClass → Bool
  | none, none => true
  | some a, some b => loxClassBeq a b
  | _, _ => false
end

/-- Equality on runtime values as `expr.rs` would derive it (file
absent; spec §4.5 prescribes structural equality): variantwise
structural comparison, with `Number` payloads compared by `f64` IEEE
equality (no NaN special case) and `Function`/`Instance` compared by
shared reference. -/
def litEq : Literal → Literal → Bool
  | .nil, .nil => true
  | .boolean a, .boolean b => a = b
  | .number a, .number b => feq a b
  | .string a, .string b => a = b
  | .identifier a, .identifier b => a = b
  | .function a, .function b => a = b
  | .nativeFunction n1 k1, .nativeFunction n2 k2 => n1 = n2 && k1 = k2
  | .classV a, .classV b => loxClassBeq a b
  | .instance_ a, .instance_ b => a = b
  | _, _ => false

mutual
/-- Equality on expressions (the `Eq` impl backing
`HashMap<Expr, usize>` in `interpreter.rs`; `expr.rs` absent):
constructorwise over tokens and subexpressions. -/
def exprBeq : Expr → Expr → Bool
  | .assign n1 v1, .assign n2 v2 => tokenEq n1 n2 && exprBeq v1 v2
  | .binary l1 o1 r1, .binary l2 o2 r2 => exprBeq l1 l2 && tokenEq o1 o2 && exprBeq r1 r2
  | .call c1 p1 a1, .call c2 p2 a2 => exprBeq c1 c2 && tokenEq p1 p2 && exprListBeq a1 a2
  | .conditional c1 l1 r1, .conditional c2 l2 r2 =>
    exprBeq c1 c2 && exprBeq l1 l2 && exprBeq r1 r2
  | .get n1 o1, .get n2 o2 => tokenEq n1 n2 && exprBeq o1 o2
  | .grouping e1, .grouping e2 => exprBeq e1 e2
  | .literal v1, .literal v2 => litEq v1 v2
  | .logical l1 o1 r1, .logical l2 o2 r2 => exprBeq l1 l2 && tokenEq o1 o2 && exprBeq r1 r2
  | .set o1 n1 v1, .set o2 n2 v2 => exprBeq o1 o2 && tokenEq n1 n2 && exprBeq v1 v2
  | .super_ k1 m1, .super_ k2 m2 => tokenEq k1 k2 && tokenEq m1 m2
  | .this_ k1, .this_ k2 => tokenEq k1 k2
  | .unary o1 r1, .unary o2 r2 => tokenEq o1 o2 && exprBeq r1 r2
  | .variable_ n1, .variable_ n2 => tokenEq n1 n2
  | _, _ => false

def exprListBeq : List Expr → List Expr → Bool
  | [], [] => true
  | x :: xs, y :: ys => exprBeq x y && exprListBeq xs ys
  | _, _ => false
end

/-- The interpreter's binding table `locals: HashMap<Expr, usize>`,
as an association list; `insert` replaces the value of an existing
key. -/
def localsInsert : List (Expr × Nat) → Expr → Nat → List (Expr × Nat)
  | [], e, d => [(e, d)]
  | (k, v) :: rest, e, d =>
    if exprBeq k e then (k, d) :: rest else (k, v) :: localsInsert rest e d

def localsGet : List (Expr × Nat) → Expr → Option Nat
  | [], _ => none
  | (k, v) :: rest, e => if exprBeq k e then some v else localsGet rest e

/-- `FunctionType` from `resolver.rs`. -/
inductive FunctionType where
  | none
  | function
  deriving DecidableEq, Repr

/-- Resolver outcome: `Ok(())`, an `Err(LoxResult::new_error(line,
message))`, or a Rust panic (`todo!`). -/
inductive ROut where
  | ok
  | err (line : Nat) (message : String)
  | fatal (msg : String)
  deriving DecidableEq, Repr

/-- One resolver scope (`HashMap<String, bool>`), as an association
list; `false` means declared but not yet defined. -/
abbrev ScopeMap := List (String × Bool)

def scopeContains (s : ScopeMap) (name : String) : Bool :=
  (List.lookup name s).isSome

def scopeGet (s : ScopeMap) (name : String) : Option Bool :=
  List.lookup name s

def scopeInsert : ScopeMap → String → Bool → ScopeMap
  | [], n, v => [(n, v)]
  | (k, w) :: rest, n, v =>
    if k = n then (k, v) :: rest else (k, w) :: scopeInsert rest n v

/-- Resolver state: the scope stack (`Vec`: the last element is the
innermost scope), the current function kind, and the interpreter's
binding table that `Interpreter::resolve` writes into. -/
structure RState where
  scopes : List ScopeMap
  current_function : FunctionType
  locals : List (Expr × Nat)

/-- `Resolver::begin_scope`. -/
def begin_scope (st : RState) : RState := { st with scopes := st.scopes ++ [[]] }

/-- `Resolver::end_scope`. -/
def end_scope (st : RState) : RState := { st with scopes := st.scopes.dropLast }

/-- `Resolver::declare`: error if the innermost scope already has the
name, else insert it as `false`; a no-op when the scope stack is
empty. -/
def declare (name : Token) (st : RState) : RState × ROut :=
  match st.scopes.getLast? with
  | Option.none => (st, .ok)
  | some scope =>
    if scopeContains scope name.lexeme then
      (st, .err name.line "Variable with this name already exists in this scope.")
    else
      ({ st with scopes := st.scopes.dropLast ++ [scopeInsert scope name.lexeme false] }, .ok)

/-- `Resolver::define`: set the name to `true` in the innermost scope;
a no-op when the scope stack is empty. -/
def define_ (name : Token) (st : RState) : RState :=
  match st.scopes.getLast? with
  | Option.none => st
  | some scope =>
    { st with scopes := st.scopes.dropLast ++ [scopeInsert scope name.lexeme true] }

/-- The loop of `Resolver::resolve_local`: iterate over the scopes
innermost-first (`.iter().rev().enumerate()`), and for EVERY scope
containing the name call `interpreter.resolve(expr, idx)` (a `HashMap`
insert, so later — outer — hits overwrite earlier ones; the source has
no break or return after the first hit). -/
def resolveLocalLoop : List ScopeMap → Nat → List (Expr × Nat) → Expr → String → List (Expr × Nat)
  | [], _, locals, _, _ => locals
  | scope :: rest, idx, locals, e, n =>
    resolveLocalLoop rest (idx + 1)
      (if scopeContains scope n then localsInsert locals e idx else locals) e n

/-- `Resolver::resolve_local`. -/
def resolve_local (st : RState) (e : Expr) (name : Token) : RState :=
  { st with locals := resolveLocalLoop st.scopes.reverse 0 st.locals e name.lexeme }

/-- Display of a token in the initializer-read error message
(abridged: the Rust message prepends the token's `Display` form, whose
exact text no claim depends on). -/
def tokenDisplay (t : Token) : String := t.lexeme

mutual
/-- The body of the `for s in stmts` loop of `Resolver::resolve_stmts`:
the `match s { ... }` on one statement. `Stmt::Class` is
`todo!()` — a panic, modelled as a `fatal` outcome. The calls
`resolve_stmts(&[x])` on singleton slices are translated to direct
single-statement resolution, which is what the singleton loop does. -/
def resolveStmt1 : Stmt → RState → RState × ROut
  | .block stmts, st =>
    match resolve_stmts stmts (begin_scope st) with
    | (st2, .ok) => (end_scope st2, .ok)
    | r => r
  | .class_ _ _ _, st => (st, .fatal "not yet implemented")
  | .expression e, st => resolve_expr e st
  | .function name params body, st =>
    match declare name st with
    | (st1, .ok) => resolve_function ⟨name, params, body⟩ .function (define_ name st1)
    | r => r
  | .if_ c t (some eb), st =>
    match resolve_expr c st with
    | (st1, .ok) =>
      match resolveStmt1 t st1 with
      | (st2, .ok) => resolveStmt1 eb st2
      | r => r
    | r => r
  | .if_ c t Option.none, st =>
    match resolve_expr c st with
    | (st1, .ok) => resolveStmt1 t st1
    | r => r
  | .print e, st => resolve_expr e st
  | .return_ keyword value, st =>
    if st.current_function = .none then
      (st, .err keyword.line "Cannot return from top-level code")
    else
      match value with
      | some v => resolve_expr v st
      | Option.none => (st, .ok)
  | .var name initializer, st =>
    match declare name st with
    | (st1, .ok) =>
      match initializer with
      | some i =>
        match resolve_expr i st1 with
        | (st2, .ok) => (define_ name st2, .ok)
        | r => r
      | Option.none => (define_ name st1, .ok)
    | r => r
  | .while_ c b, st =>
    match resolve_expr c st with
    | (st1, .ok) => resolveStmt1 b st1
    | r => r
termination_by s _ => (sizeOf s, 1)

/-- `Resolver::resolve_stmts`: resolve the statements in order, stopping
at the first error (`?`). -/
def resolve_stmts : List Stmt → RState → RState × ROut
  | [], st => (st, .ok)
  | s :: rest, st =>
    match resolveStmt1 s st with
    | (st2, .ok) => resolve_stmts rest st2
    | r => r
termination_by l _ => (sizeOf l, 2)

/-- `Resolver::resolve_expr`. The source match has no arms for
`Get`/`Set`/`Super`/`This`; reaching one of those is modelled as a
fatal outcome. -/
def resolve_expr : Expr → RState → RState × ROut
  | .assign n v, st =>
    match resolve_expr v st with
    | (st1, .ok) => (resolve_local st1 (.assign n v) n, .ok)
    | r => r
  | .binary l _ r, st =>
    match resolve_expr l st with
    | (st1, .ok) => resolve_expr r st1
    | res => res
  | .call callee _ args, st =>
    match resolve_expr callee st with
    | (st1, .ok) => resolve_exprs args st1
    | r => r
  | .conditional c l r, st =>
    match resolve_expr c st with
    | (st1, .ok) =>
      match resolve_expr l st1 with
      | (st2, .ok) => resolve_expr r st2
      | res => res
    | res => res
  | .grouping e, st => resolve_expr e st
  | .literal _, st => (st, .ok)
  | .logical l _ r, st =>
    match resolve_expr l st with
    | (st1, .ok) => resolve_expr r st1
    | res => res
  | .unary _ r, st => resolve_expr r st
  | .variable_ n, st =>
    match st.scopes.getLast? with
    | some scope =>
      if scopeGet scope n.lexeme = some false then
        (st, .err n.line
          (tokenDisplay n ++ " Can't read local variable in its own initializer"))
      else (resolve_local st (.variable_ n) n, .ok)
    | Option.none => (resolve_local st (.variable_ n) n, .ok)
  | e, st =>
    match e with
    | _ => (st, .fatal "non-exhaustive match in resolve_expr")
termination_by e _ => (sizeOf e, 0)

/-- The argument loop inside the `Expr::Call` arm. -/
def resolve_exprs : List Expr → RState → RState × ROut
  | [], st => (st, .ok)
  | a :: rest, st =>
    match resolve_expr a st with
    | (st1, .ok) => resolve_exprs rest st1
    | r => r
termination_by l _ => (sizeOf l, 2)

/-- `Resolver::resolve_function`: save and set the current function
kind, open the parameter scope, declare+define each parameter, resolve
the body, close the scope and restore the kind. An error propagates
immediately (skipping the scope pop and the restore, as `?` does in the
source). -/
def resolve_function (f : FunctionStmt) (k : FunctionType) (st : RState) : RState × ROut :=
  let enclosing := st.current_function
  match declareParams f.params (begin_scope { st with current_function := k }) with
  | (st1, .ok) =>
    match resolve_stmts f.body st1 with
    | (st2, .ok) => ({ end_scope st2 with current_function := enclosing }, .ok)
    | r => r
  | r => r
termination_by (sizeOf f, 0)
decreasing_by
  all_goals apply Prod.Lex.left
  all_goals (cases f; simp; try omega)

/-- The parameter loop of `resolve_function`. -/
def declareParams : List Token → RState → RState × ROut
  | [], st => (st, .ok)
  | p :: rest, st =>
    match declare p st with
    | (st1, .ok) => declareParams rest (define_ p st1)
    | r => r
termination_by l _ => (sizeOf l, 0)
end

/-- C1: resolving any statement list that starts with a class
declaration hits the `Stmt::Class(_) => todo!()` arm of
`resolve_stmts`, i.e. the resolver panics instead of declaring the
class, handling the superclass, pushing the `super`/`this` scopes and
resolving the methods as the specification describes; it does not
return `Ok` or a `ResolveError` on any such input. -/
theorem resolve_stmts_class_is_todo :
    ∀ (st : RState) (name : Token) (methods : List Stmt) (superclass : Option VariableExpr),
      resolve_stmts [Stmt.class_ name methods superclass] st =
        (st, .fatal "not yet implemented") := by
  intro st name methods superclass
  simp [resolve_stmts, resolveStmt1]

/-- Modelled from the spec (resolver §: "walk scopes innermost-first;
on the FIRST scope containing the name, record the zero-based depth"):
the depth the specification says gets recorded. Used only to exhibit
the divergence of `resolve_local` from it. -/
def specNearestDepth (scopes : List ScopeMap) (name : String) : Option Nat :=
  scopes.reverse.findIdx? (fun s => scopeContains s name)

/-- C2: with two nested scopes both containing `a` (scope stack
`[outer, inner]`, e.g. from `{ var a = 1; { var a = 2; print a; } }`),
`resolve_local` on the inner `print a` records depth 1 — the distance
to the OUTERMOST containing scope — because its loop has no
break/return after the first hit and the later (outer) `HashMap`
insert overwrites the earlier one; the nearest containing scope is at
depth 0, which is what the claim (and the spec) says gets recorded. -/
theorem resolve_local_records_outermost_not_nearest :
    localsGet
      (resolve_local ⟨[[("a", true)], [("a", true)]], .none, []⟩
        (.variable_ ⟨.identifier "a", "a", 3⟩) ⟨.identifier "a", "a", 3⟩).locals
      (.variable_ ⟨.identifier "a", "a", 3⟩) = some 1
    ∧ specNearestDepth [[("a", true)], [("a", true)]] "a" = some 0 := by
  constructor
  · decide
  · decide

/-- Result of a parser production: `div` is fuel exhaustion (no Rust
counterpart; the wrapper passes ample fuel), `fatal` a Rust panic
(`peek().unwrap()`/`next().unwrap()` on an exhausted token stream),
`err` an `Err(ParseErrorCause)` together with the tokens left
unconsumed at that point, and `ok` a produced value with the remaining
tokens. -/
inductive PRes (α : Type) where
  | div
  | fatal (msg : String)
  | err (c : ParseErrorCause) (rest : List Token)
  | ok (o : α) (rest : List Token)

/-- Output of one parser production: an expression, a statement, a
block's statement list, or the whole program (`Parser::parse`'s
`Result`). -/
inductive POut where
  | expr (e : Expr)
  | stmt (s : Stmt)
  | stmts (l : List Stmt)
  | parsed (r : Except (List ParseErrorCause) (List Stmt))

/-- `if let TokenType::Identifier(_)` test. -/
def isIdentTT : TokenType → Bool
  | .identifier _ => true
  | _ => false

/-- `Parser::sync`: discard tokens up to (not past) `Eof` or the next
statement-starting keyword. -/
def sync : List Token → List Token
  | [] => []
  | t :: rest =>
    if tokenTypeEq t.token_type .eof then t :: rest
    else
      match t.token_type with
      | .class_ | .fun_ | .var | .for_ | .if_ | .while_ | .print | .return_ => t :: rest
      | _ => sync rest

/-- The parameter loop of `Parser::function`. `t0` is the token peeked
(and cloned) once before the loop: the source checks `t0` — not the
current token — for being an identifier on every iteration, then
consumes whatever token is next as the parameter. The 255 cap is
checked after consuming a parameter and before pushing it; hitting it
returns the error (at the just-consumed parameter token) out of the
whole declaration. -/
def paramsLoop (t0 : Token) (params : List Token) : List Token → PRes (List Token)
  | [] =>
    if isIdentTT t0.token_type then .fatal "next on exhausted token stream"
    else .err ⟨t0.line, some t0.lexeme, "Expect parameter name."⟩ []
  | p :: rest =>
    if isIdentTT t0.token_type then
      if params.length ≥ 255 then
        .err ⟨p.line, some p.lexeme, "Can't have more than 255 parameters."⟩ rest
      else
        match rest with
        | [] => .fatal "peek on exhausted token stream"
        | t :: rest2 =>
          if tokenTypeEq t.token_type .comma then paramsLoop t0 (params ++ [p]) rest2
          else .ok (params ++ [p]) rest
    else .err ⟨t0.line, some t0.lexeme, "Expect parameter name."⟩ (p :: rest)

/-- The parser productions of `parser.rs`, one constructor per source
function, plus constructors for the source-level loops (which carry
their accumulators) and for mid-function resumption points after a
recursive sub-parse. -/
inductive PCall where
  | parse (statements : List Stmt) (errors : List ParseErrorCause)
  | declaration
  | class_declaration
  | classBody (name : Token) (superclass : Option VariableExpr)
  | classMethods (name : Token) (superclass : Option VariableExpr) (methods : List Stmt)
  | classClose (name : Token) (superclass : Option VariableExpr) (methods : List Stmt)
  | var_declaration
  | varSemi (name : Token) (initializer : Option Expr)
  | statement
  | while_statement
  | for_statement
  | forInit
  | forCond (initializer : Option Stmt)
  | forCondSemi (initializer : Option Stmt) (condition : Expr)
  | forIncr (initializer : Option Stmt) (condition : Expr)
  | forClose (initializer : Option Stmt) (condition : Expr) (increment : Option Expr)
  | if_statement
  | print_statement
  | return_statement
  | returnSemi (keyword : Token) (value : Option Expr)
  | expression_statement
  | function (kind : String)
  | funcBody (kind : String) (name : Token) (params : List Token)
  | block (statements : List Stmt)
  | expression
  | conditional
  | assignment
  | logic_or
  | logicOrLoop (left : Expr)
  | logic_and
  | logicAndLoop (left : Expr)
  | equality
  | equalityLoop (left : Expr)
  | comparison
  | comparisonLoop (left : Expr)
  | term
  | termLoop (left : Expr)
  | factor
  | factorLoop (left : Expr)
  | unary
  | call
  | callLoop (e : Expr)
  | finish_call (callee : Expr)
  | argsLoop (callee : Expr) (arguments : List Expr)
  | finishCallClose (callee : Expr) (arguments : List Expr)
  | primary

/-- One-step interpreter for the recursive-descent parser of
`parser.rs`: `step fuel production tokens` runs the named production on
the token stream. The fuel only bounds the call depth (every recursive
call passes `f`); between any two token consumptions the source makes a
bounded number of nested calls, so the fuel passed by `parseTokens`
never runs out on its input. -/
def step : Nat → PCall → List Token → PRes POut
  | 0, _, _ => .div
  | f + 1, c, toks =>
    match c with
    | .parse stmts errs =>
      match toks with
      | [] => .ok (.parsed (if errs = [] then .ok stmts else .error errs)) []
      | t :: _ =>
        if tokenTypeEq t.token_type .eof then
          .ok (.parsed (if errs = [] then .ok stmts else .error errs)) toks
        else
          match step f .declaration toks with
          | .ok (.stmt d) rest => step f (.parse (stmts ++ [d]) errs) rest
          | .err e rest => step f (.parse stmts (errs ++ [e])) (sync rest)
          | .ok _ _ => .fatal "unexpected production result"
          | .fatal m => .fatal m
          | .div => .div
    | .declaration =>
      match toks with
      | [] => step f .statement []
      | t :: rest =>
        if tokenTypeEq t.token_type .var then step f .var_declaration rest
        else if tokenTypeEq t.token_type .fun_ then step f (.function "function") rest
        else if tokenTypeEq t.token_type .class_ then step f .class_declaration rest
        else step f .statement (t :: rest)
    | .class_declaration =>
      match toks with
      | [] => .fatal "peek on exhausted token stream"
      | t :: rest =>
        if isIdentTT t.token_type then
          match rest with
          | [] => step f (.classBody t Option.none) []
          | l :: rest2 =>
            if tokenTypeEq l.token_type .less then
              match rest2 with
              | [] => .fatal "peek on exhausted token stream"
              | s :: rest3 =>
                if isIdentTT s.token_type then step f (.classBody t (some ⟨s⟩)) rest3
                else .err ⟨s.line, some s.lexeme, "Expect superclass name."⟩ rest2
            else step f (.classBody t Option.none) rest
        else .err ⟨t.line, some t.lexeme, "Expect class name."⟩ toks
    | .classBody name sc =>
      match toks with
      | [] => step f (.classMethods name sc []) []
      | t :: rest =>
        if tokenTypeEq t.token_type .leftBrace then step f (.classMethods name sc []) rest
        else .err ⟨t.line, some t.lexeme, "Expect '\x7b' before class body."⟩ toks
    | .classMethods name sc methods =>
      match toks with
      | [] => step f (.classClose name sc methods) []
      | t :: _ =>
        if tokenTypeEq t.token_type .rightBrace || tokenTypeEq t.token_type .eof then
          step f (.classClose name sc methods) toks
        else
          match step f (.function "method") toks with
          | .ok (.stmt m) rest => step f (.classMethods name sc (methods ++ [m])) rest
          | .ok _ _ => .fatal "unexpected production result"
          | .err e rest => .err e rest
          | .fatal m => .fatal m
          | .div => .div
    | .classClose name sc methods =>
      match toks with
      | [] => .ok (.stmt (.class_ name methods sc)) []
      | t :: rest =>
        if tokenTypeEq t.token_type .rightBrace then .ok (.stmt (.class_ name methods sc)) rest
        else .err ⟨t.line, some t.lexeme, "Expect '\x7d' after class body."⟩ toks
    | .var_declaration =>
      match toks with
      | [] => .fatal "peek on exhausted token stream"
      | t :: rest =>
        if isIdentTT t.token_type then
          match rest with
          | [] => .fatal "peek on exhausted token stream"
          | e :: rest2 =>
            if tokenTypeEq e.token_type .equal then
              match step f .expression rest2 with
              | .ok (.expr init) rest3 => step f (.varSemi t (some init)) rest3
              | .ok _ _ => .fatal "unexpected production result"
              | .err c r => .err c r
              | .fatal m => .fatal m
              | .div => .div
            else step f (.varSemi t Option.none) rest
        else .err ⟨t.line, some t.lexeme, "Expect variable name."⟩ toks
    | .varSemi name init =>
      match toks with
      | [] => .fatal "peek on exhausted token stream"
      | t :: rest =>
        if tokenTypeEq t.token_type .semicolon then .ok (.stmt (.var name init)) rest
        else .err ⟨t.line, some t.lexeme, "Expect ';' after variable declaration."⟩ toks
    | .statement =>
      match toks with
      | [] => .fatal "peek on exhausted token stream"
      | t :: rest =>
        match t.token_type with
        | .if_ => step f .if_statement rest
        | .print => step f .print_statement rest
        | .return_ => step f .return_statement (t :: rest)
        | .while_ => step f .while_statement rest
        | .for_ => step f .for_statement rest
        | .leftBrace =>
          match step f (.block []) rest with
          | .ok (.stmts l) rest2 => .ok (.stmt (.block l)) rest2
          | .ok _ _ => .fatal "unexpected production result"
          | .err c r => .err c r
          | .fatal m => .fatal m
          | .div => .div
        | _ => step f .expression_statement (t :: rest)
    | .while_statement =>
      match toks with
      | [] => .fatal "peek on exhausted token stream"
      | t :: rest =>
        if tokenTypeEq t.token_type .leftParen then
          match step f .expression rest with
          | .ok (.expr cond) rest2 =>
            match rest2 with
            | [] => .fatal "peek on exhausted token stream"
            | t2 :: rest3 =>
              if tokenTypeEq t2.token_type .rightParen then
                match step f .statement rest3 with
                | .ok (.stmt body) rest4 => .ok (.stmt (.while_ cond body)) rest4
                | .ok _ _ => .fatal "unexpected production result"
                | .err c r => .err c r
                | .fatal m => .fatal m
                | .div => .div
              else .err ⟨t2.line, some t2.lexeme, "Expect ')' after condition."⟩ rest2
          | .ok _ _ => .fatal "unexpected production result"
          | .err c r => .err c r
          | .fatal m => .fatal m
          | .div => .div
        else .err ⟨t.line, some t.lexeme, "Expect '(' after 'while'."⟩ toks
    | .for_statement =>
      match toks with
      | [] => .fatal "peek on exhausted token stream"
      | t :: rest =>
        if tokenTypeEq t.token_type .leftParen then step f .forInit rest
        else .err ⟨t.line, some t.lexeme, "Expect '(' after 'for'."⟩ toks
    | .forInit =>
      match toks with
      | [] => .fatal "peek on exhausted token stream"
      | t :: rest =>
        if tokenTypeEq t.token_type .semicolon then step f (.forCond Option.none) rest
        else if tokenTypeEq t.token_type .var then
          match step f .var_declaration rest with
          | .ok (.stmt i) r => step f (.forCond (some i)) r
          | .ok _ _ => .fatal "unexpected production result"
          | .err c r => .err c r
          | .fatal m => .fatal m
          | .div => .div
        else
          match step f .expression_statement (t :: rest) with
          | .ok (.stmt i) r => step f (.forCond (some i)) r
          | .ok _ _ => .fatal "unexpected production result"
          | .err c r => .err c r
          | .fatal m => .fatal m
          | .div => .div
    | .forCond init =>
      match toks with
      | [] => .fatal "peek on exhausted token stream"
      | t :: _ =>
        if tokenTypeEq t.token_type .semicolon then
          step f (.forCondSemi init (.literal (.boolean true))) toks
        else
          match step f .expression toks with
          | .ok (.expr cnd) r => step f (.forCondSemi init cnd) r
          | .ok _ _ => .fatal "unexpected production result"
          | .err c r => .err c r
          | .fatal m => .fatal m
          | .div => .div
    | .forCondSemi init cnd =>
      match toks with
      | [] => .fatal "peek on exhausted token stream"
      | t :: rest =>
        if tokenTypeEq t.token_type .semicolon then step f (.forIncr init cnd) rest
        else .err ⟨t.line, some t.lexeme, "Expect ';' after loop condition."⟩ toks
    | .forIncr init cnd =>
      match toks with
      | [] => .fatal "peek on exhausted token stream"
      | t :: _ =>
        if tokenTypeEq t.token_type .rightParen then
          step f (.forClose init cnd Option.none) toks
        else
          match step f .expression toks with
          | .ok (.expr i) r => step f (.forClose init cnd (some i)) r
          | .ok _ _ => .fatal "unexpected production result"
          | .err c r => .err c r
          | .fatal m => .fatal m
          | .div => .div
    | .forClose init cnd incr =>
      match toks with
      | [] => .fatal "peek on exhausted token stream"
      | t :: rest =>
        if tokenTypeEq t.token_type .rightParen then
          match step f .statement rest with
          | .ok (.stmt body) r =>
            .ok (.stmt
              (match init with
               | some i => .block [i,
                   .while_ cnd (match incr with
                     | some inc => .block [body, .expression inc]
                     | Option.none => body)]
               | Option.none =>
                 .while_ cnd (match incr with
                   | some inc => .block [body, .expression inc]
                   | Option.none => body))) r
          | .ok _ _ => .fatal "unexpected production result"
          | .err c r => .err c r
          | .fatal m => .fatal m
          | .div => .div
        else .err ⟨t.line, some t.lexeme, "Expect ')' after for clauses."⟩ toks
    | .if_statement =>
      match toks with
      | [] => .fatal "peek on exhausted token stream"
      | t :: rest =>
        if tokenTypeEq t.token_type .leftParen then
          match step f .expression rest with
          | .ok (.expr cond) rest2 =>
            match rest2 with
            | [] => .fatal "peek on exhausted token stream"
            | t2 :: rest3 =>
              if tokenTypeEq t2.token_type .rightParen then
                match step f .statement rest3 with
                | .ok (.stmt thenb) rest4 =>
                  match rest4 with
                  | [] => .ok (.stmt (.if_ cond thenb Option.none)) []
                  | e :: rest5 =>
                    if tokenTypeEq e.token_type .else_ then
                      match step f .statement rest5 with
                      | .ok (.stmt elseb) rest6 =>
                        .ok (.stmt (.if_ cond thenb (some elseb))) rest6
                      | .ok _ _ => .fatal "unexpected production result"
                      | .err c r => .err c r
                      | .fatal m => .fatal m
                      | .div => .div
                    else .ok (.stmt (.if_ cond thenb Option.none)) rest4
                | .ok _ _ => .fatal "unexpected production result"
                | .err c r => .err c r
                | .fatal m => .fatal m
                | .div => .div
              else .err ⟨t2.line, some t2.lexeme, "Expect ')' after if condition."⟩ rest2
          | .ok _ _ => .fatal "unexpected production result"
          | .err c r => .err c r
          | .fatal m => .fatal m
          | .div => .div
        else .err ⟨t.line, some t.lexeme, "Expect '(' after if."⟩ toks
    | .print_statement =>
      match step f .expression toks with
      | .ok (.expr v) rest =>
        match rest with
        | [] => .fatal "peek on exhausted token stream"
        | t :: rest2 =>
          if tokenTypeEq t.token_type .semicolon then .ok (.stmt (.print v)) rest2
          else .err ⟨t.line, some t.lexeme, "Expect ';' after expression"⟩ rest
      | .ok _ _ => .fatal "unexpected production result"
      | .err c r => .err c r
      | .fatal m => .fatal m
      | .div => .div
    | .return_statement =>
      match toks with
      | [] => .fatal "next on exhausted token stream"
      | kw :: rest =>
        match rest with
        | [] => .fatal "peek on exhausted token stream"
        | t :: _ =>
          if tokenTypeEq t.token_type .semicolon then
            step f (.returnSemi kw Option.none) rest
          else
            match step f .expression rest with
            | .ok (.expr v) r => step f (.returnSemi kw (some v)) r
            | .ok _ _ => .fatal "unexpected production result"
            | .err c r => .err c r
            | .fatal m => .fatal m
            | .div => .div
    | .returnSemi kw v =>
      match toks with
      | [] => .fatal "peek on exhausted token stream"
      | t :: rest =>
        if tokenTypeEq t.token_type .semicolon then .ok (.stmt (.return_ kw v)) rest
        else .err ⟨t.line, some t.lexeme, "Expect ';' after return value."⟩ toks
    | .expression_statement =>
      match step f .expression toks with
      | .ok (.expr e) rest =>
        match rest with
        | [] => .fatal "peek on exhausted token stream"
        | t :: rest2 =>
          if tokenTypeEq t.token_type .semicolon then .ok (.stmt (.expression e)) rest2
          else .err ⟨t.line, some t.lexeme, "Expect ';' after expression."⟩ rest
      | .ok _ _ => .fatal "unexpected production result"
      | .err c r => .err c r
      | .fatal m => .fatal m
      | .div => .div
    | .function kind =>
      match toks with
      | [] => .fatal "peek on exhausted token stream"
      | t :: rest =>
        if isIdentTT t.token_type then
          match rest with
          | [] => .fatal "peek on exhausted token stream"
          | lp :: rest2 =>
            if tokenTypeEq lp.token_type .leftParen then
              match rest2 with
              | [] => .fatal "peek on exhausted token stream"
              | t0 :: _ =>
                if tokenTypeEq t0.token_type .rightParen then
                  step f (.funcBody kind t []) rest2
                else
                  match paramsLoop t0 [] rest2 with
                  | .ok params r => step f (.funcBody kind t params) r
                  | .err c r => .err c r
                  | .fatal m => .fatal m
                  | .div => .div
            else .err ⟨lp.line, some lp.lexeme, "Expect '(' after " ++ kind ++ " name."⟩ rest
        else .err ⟨t.line, some t.lexeme, "Expect " ++ kind ++ " name."⟩ toks
    | .funcBody kind name params =>
      match toks with
      | [] => .fatal "peek on exhausted token stream"
      | rp :: rest =>
        if tokenTypeEq rp.token_type .rightParen then
          match rest with
          | [] => .fatal "peek on exhausted token stream"
          | lb :: rest2 =>
            if tokenTypeEq lb.token_type .leftBrace then
              match step f (.block []) rest2 with
              | .ok (.stmts body) r => .ok (.stmt (.function name params body)) r
              | .ok _ _ => .fatal "unexpected production result"
              | .err c r => .err c r
              | .fatal m => .fatal m
              | .div => .div
            else .err ⟨lb.line, some lb.lexeme, "Expect '\x7b' before " ++ kind ++ " body."⟩ rest
        else .err ⟨rp.line, some rp.lexeme, "Expect ')' after parameters."⟩ toks
    | .block stmts =>
      match toks with
      | [] => .fatal "peek on exhausted token stream"
      | t :: rest =>
        match t.token_type with
        | .rightBrace => .ok (.stmts stmts) rest
        | .eof => .err ⟨t.line, some t.lexeme, "Expect '\x7d' after block."⟩ toks
        | _ =>
          match step f .declaration (t :: rest) with
          | .ok (.stmt d) r => step f (.block (stmts ++ [d])) r
          | .ok _ _ => .fatal "unexpected production result"
          | .err c r => .err c r
          | .fatal m => .fatal m
          | .div => .div
    | .expression => step f .conditional toks
    | .conditional =>
      match step f .assignment toks with
      | .ok (.expr e) rest =>
        match rest with
        | [] => .ok (.expr e) []
        | q :: rest2 =>
          if tokenTypeEq q.token_type .questionMark then
            match step f .expression rest2 with
            | .ok (.expr l) rest3 =>
              match rest3 with
              | [] => .fatal "peek on exhausted token stream"
              | cl :: rest4 =>
                if tokenTypeEq cl.token_type .colon then
                  match step f .conditional rest4 with
                  | .ok (.expr r) rest5 => .ok (.expr (.conditional e l r)) rest5
                  | .ok _ _ => .fatal "unexpected production result"
                  | .err c rr => .err c rr
                  | .fatal m => .fatal m
                  | .div => .div
                else .err ⟨cl.line, some cl.lexeme, "Expect ':' after truthy expression"⟩ rest3
            | .ok _ _ => .fatal "unexpected production result"
            | .err c rr => .err c rr
            | .fatal m => .fatal m
            | .div => .div
          else .ok (.expr e) rest
      | .ok _ _ => .fatal "unexpected production result"
      | .err c rr => .err c rr
      | .fatal m => .fatal m
      | .div => .div
    | .assignment =>
      match step f .logic_or toks with
      | .ok (.expr e) rest =>
        match rest with
        | [] => .ok (.expr e) []
        | t :: rest2 =>
          if tokenTypeEq t.token_type .equal then
            match step f .assignment rest2 with
            | .ok (.expr v) rest3 =>
              match e with
              | .variable_ n => .ok (.expr (.assign n v)) rest3
              | .get gname gobj => .ok (.expr (.set gobj gname v)) rest3
              | _ => .err ⟨t.line, some t.lexeme, "Invalid assignment target."⟩ rest3
            | .ok _ _ => .fatal "unexpected production result"
            | .err c rr => .err c rr
            | .fatal m => .fatal m
            | .div => .div
          else .ok (.expr e) rest
      | .ok _ _ => .fatal "unexpected production result"
      | .err c rr => .err c rr
      | .fatal m => .fatal m
      | .div => .div
    | .logic_or =>
      match step f .logic_and toks with
      | .ok (.expr e) rest => step f (.logicOrLoop e) rest
      | .ok _ _ => .fatal "unexpected production result"
      | .err c rr => .err c rr
      | .fatal m => .fatal m
      | .div => .div
    | .logicOrLoop left =>
      match toks with
      | [] => .ok (.expr left) []
      | t :: rest =>
        if tokenTypeEq t.token_type .or then
          match step f .logic_and rest with
          | .ok (.expr right) r => step f (.logicOrLoop (.logical left t right)) r
          | .ok _ _ => .fatal "unexpected production result"
          | .err c rr => .err c rr
          | .fatal m => .fatal m
          | .div => .div
        else .ok (.expr left) toks
    | .logic_and =>
      match step f .equality toks with
      | .ok (.expr e) rest => step f (.logicAndLoop e) rest
      | .ok _ _ => .fatal "unexpected production result"
      | .err c rr => .err c rr
      | .fatal m => .fatal m
      | .div => .div
    | .logicAndLoop left =>
      match toks with
      | [] => .ok (.expr left) []
      | t :: rest =>
        if tokenTypeEq t.token_type .and then
          match step f .equality rest with
          | .ok (.expr right) r => step f (.logicAndLoop (.logical left t right)) r
          | .ok _ _ => .fatal "unexpected production result"
          | .err c rr => .err c rr
          | .fatal m => .fatal m
          | .div => .div
        else .ok (.expr left) toks
    | .equality =>
      match step f .comparison toks with
      | .ok (.expr e) rest => step f (.equalityLoop e) rest
      | .ok _ _ => .fatal "unexpected production result"
      | .err c rr => .err c rr
      | .fatal m => .fatal m
      | .div => .div
    | .equalityLoop left =>
      match toks with
      | [] => .ok (.expr left) []
      | t :: rest =>
        if tokenTypeEq t.token_type .bangEqual || tokenTypeEq t.token_type .equalEqual then
          match step f .comparison rest with
          | .ok (.expr right) r => step f (.equalityLoop (.binary left t right)) r
          | .ok _ _ => .fatal "unexpected production result"
          | .err c rr => .err c rr
          | .fatal m => .fatal m
          | .div => .div
        else .ok (.expr left) toks
    | .comparison =>
      match step f .term toks with
      | .ok (.expr e) rest => step f (.comparisonLoop e) rest
      | .ok _ _ => .fatal "unexpected production result"
      | .err c rr => .err c rr
      | .fatal m => .fatal m
      | .div => .div
    | .comparisonLoop left =>
      match toks with
      | [] => .ok (.expr left) []
      | t :: rest =>
        if tokenTypeEq t.token_type .greater || tokenTypeEq t.token_type .greaterEqual
            || tokenTypeEq t.token_type .less || tokenTypeEq t.token_type .lessEqual then
          match step f .term rest with
          | .ok (.expr right) r => step f (.comparisonLoop (.binary left t right)) r
          | .ok _ _ => .fatal "unexpected production result"
          | .err c rr => .err c rr
          | .fatal m => .fatal m
          | .div => .div
        else .ok (.expr left) toks
    | .term =>
      match step f .factor toks with
      | .ok (.expr e) rest => step f (.termLoop e) rest
      | .ok _ _ => .fatal "unexpected production result"
      | .err c rr => .err c rr
      | .fatal m => .fatal m
      | .div => .div
    | .termLoop left =>
      match toks with
      | [] => .ok (.expr left) []
      | t :: rest =>
        if tokenTypeEq t.token_type .minus || tokenTypeEq t.token_type .plus then
          match step f .factor rest with
          | .ok (.expr right) r => step f (.termLoop (.binary left t right)) r
          | .ok _ _ => .fatal "unexpected production result"
          | .err c rr => .err c rr
          | .fatal m => .fatal m
          | .div => .div
        else .ok (.expr left) toks
    | .factor =>
      match step f .unary toks with
      | .ok (.expr e) rest => step f (.factorLoop e) rest
      | .ok _ _ => .fatal "unexpected production result"
      | .err c rr => .err c rr
      | .fatal m => .fatal m
      | .div => .div
    | .factorLoop left =>
      match toks with
      | [] => .ok (.expr left) []
      | t :: rest =>
        if tokenTypeEq t.token_type .slash || tokenTypeEq t.token_type .star then
          match step f .unary rest with
          | .ok (.expr right) r => step f (.factorLoop (.binary left t right)) r
          | .ok _ _ => .fatal "unexpected production result"
          | .err c rr => .err c rr
          | .fatal m => .fatal m
          | .div => .div
        else .ok (.expr left) toks
    | .unary =>
      match toks with
      | [] => step f .call []
      | t :: rest =>
        if tokenTypeEq t.token_type .bang || tokenTypeEq t.token_type .minus then
          match step f .unary rest with
          | .ok (.expr right) r => .ok (.expr (.unary t right)) r
          | .ok _ _ => .fatal "unexpected production result"
          | .err c rr => .err c rr
          | .fatal m => .fatal m
          | .div => .div
        else step f .call (t :: rest)
    | .call =>
      match step f .primary toks with
      | .ok (.expr e) rest => step f (.callLoop e) rest
      | .ok _ _ => .fatal "unexpected production result"
      | .err c rr => .err c rr
      | .fatal m => .fatal m
      | .div => .div
    | .callLoop e =>
      match toks with
      | [] => .fatal "peek on exhausted token stream"
      | t :: rest =>
        if tokenTypeEq t.token_type .leftParen then
          match step f (.finish_call e) rest with
          | .ok (.expr e2) r => step f (.callLoop e2) r
          | .ok _ _ => .fatal "unexpected production result"
          | .err c rr => .err c rr
          | .fatal m => .fatal m
          | .div => .div
        else if tokenTypeEq t.token_type .dot then
          match rest with
          | [] => .fatal "peek on exhausted token stream"
          | n :: rest2 =>
            if isIdentTT n.token_type then step f (.callLoop (.get n e)) rest2
            else .err ⟨n.line, some n.lexeme, "Expect property name after '.'."⟩ rest
        else .ok (.expr e) toks
    | .finish_call callee =>
      match toks with
      | [] => .fatal "peek on exhausted token stream"
      | t0 :: _ =>
        if tokenTypeEq t0.token_type .rightParen then
          step f (.finishCallClose callee []) toks
        else
          match step f .expression toks with
          | .ok (.expr a) r => step f (.argsLoop callee [a]) r
          | .ok _ _ => .fatal "unexpected production result"
          | .err c rr => .err c rr
          | .fatal m => .fatal m
          | .div => .div
    | .argsLoop callee args =>
      match toks with
      | [] => step f (.finishCallClose callee args) []
      | t :: rest =>
        if tokenTypeEq t.token_type .comma then
          if args.length ≥ 255 then
            match rest with
            | [] => .fatal "next on exhausted token stream"
            | t2 :: rest2 =>
              .err ⟨t2.line, some t2.lexeme, "Can't have more than 255 arguments."⟩ rest2
          else
            match step f .expression rest with
            | .ok (.expr a) r => step f (.argsLoop callee (args ++ [a])) r
            | .ok _ _ => .fatal "unexpected production result"
            | .err c rr => .err c rr
            | .fatal m => .fatal m
            | .div => .div
        else step f (.finishCallClose callee args) toks
    | .finishCallClose callee args =>
      match toks with
      | [] => .fatal "peek on exhausted token stream"
      | t :: rest =>
        if tokenTypeEq t.token_type .rightParen then .ok (.expr (.call callee t args)) rest
        else .err ⟨t.line, some t.lexeme, "Expect ')' after arguments."⟩ toks
    | .primary =>
      match toks with
      | [] => .fatal "next on exhausted token stream"
      | t :: rest =>
        match t.token_type with
        | .false_ => .ok (.expr (.literal (.boolean false))) rest
        | .true_ => .ok (.expr (.literal (.boolean true))) rest
        | .nil => .ok (.expr (.literal .nil)) rest
        | .string s => .ok (.expr (.literal (.string s))) rest
        | .number n => .ok (.expr (.literal (.number n))) rest
        | .this => .ok (.expr (.this_ t)) rest
        | .super =>
          match rest with
          | [] => .fatal "peek on exhausted token stream"
          | d :: rest2 =>
            if tokenTypeEq d.token_type .dot then
              match rest2 with
              | [] => .fatal "peek on exhausted token stream"
              | m :: rest3 =>
                if isIdentTT m.token_type then .ok (.expr (.super_ t m)) rest3
                else .err ⟨m.line, some m.lexeme, "Expect superclass method name."⟩ rest2
            else .err ⟨d.line, some d.lexeme, "Expect '.' after 'super'."⟩ rest
        | .leftParen =>
          match step f .expression rest with
          | .ok (.expr e) r =>
            match r with
            | [] => .fatal "peek on exhausted token stream"
            | rp :: r2 =>
              if tokenTypeEq rp.token_type .rightParen then .ok (.expr (.grouping e)) r2
              else .err ⟨rp.line, some rp.lexeme, "Expect ')' after expression"⟩ r
          | .ok _ _ => .fatal "unexpected production result"
          | .err c rr => .err c rr
          | .fatal m => .fatal m
          | .div => .div
        | .identifier _ => .ok (.expr (.variable_ t)) rest
        | _ => .err ⟨t.line, some t.lexeme, "Expect expression."⟩ rest

/-- `Parser::parse` on a token list: run the parse loop with empty
accumulators and call-depth fuel ample for the input. -/
def parseTokens (toks : List Token) : PRes POut :=
  step ((toks.length + 1) * 32) (.parse [] []) toks

/-- Projection: the causes of a `ParseError` outcome of the parse
loop. -/
def parsedErrors : PRes POut → Option (List ParseErrorCause)
  | .ok (.parsed (.error cs)) _ => some cs
  | _ => none

/-- Projection: the number of statements of a successful parse. -/
def parsedOkCount : PRes POut → Option Nat
  | .ok (.parsed (.ok l)) _ => some l.length
  | _ => none

def idTok (s : String) : Token := ⟨.identifier s, s, 1⟩

/-- Token stream of the source `a + b = c;` (line 1). -/
def c3toks : List Token :=
  [idTok "a", ⟨.plus, "+", 1⟩, idTok "b", ⟨.equal, "=", 1⟩, idTok "c",
   ⟨.semicolon, ";", 1⟩, ⟨.eof, "", 1⟩]

/-- C3: for `a + b = c;` — an `=` whose left-hand side is neither a
`Variable` nor a `Get` — the `assignment` production executes
`return Err(... "Invalid assignment target.")` (despite the adjacent
NOTE comment claiming the error is "reported but not thrown"), so the
error propagates out of the enclosing statement, `parse` records it and
runs `synchronize`, and the whole parse yields a `ParseError` with that
single cause and no statement, instead of continuing past the bad
assignment. -/
theorem invalid_assignment_target_aborts_statement :
    parsedErrors (parseTokens c3toks) =
      some [⟨1, some "=", "Invalid assignment target."⟩]
    ∧ parsedOkCount (parseTokens c3toks) = Option.none := by
  constructor
  · decide
  · decide

def commaParams : Nat → List Token
  | 0 => []
  | k + 1 => ⟨.comma, ",", 1⟩ :: idTok "p" :: commaParams k

def paramSeq : Nat → List Token
  | 0 => []
  | k + 1 => idTok "p" :: commaParams k

/-- Token stream of `fun f(p, p, ..., p) {}` with `n` parameters. -/
def funDeclToks (n : Nat) : List Token :=
  [⟨.fun_, "fun", 1⟩, idTok "f", ⟨.leftParen, "(", 1⟩] ++ paramSeq n ++
  [⟨.rightParen, ")", 1⟩, ⟨.leftBrace, "\x7b", 1⟩, ⟨.rightBrace, "\x7d", 1⟩, ⟨.eof, "", 1⟩]

def numTok : Token := ⟨.number (.fin 1), "1", 1⟩

def commaArgs : Nat → List Token
  | 0 => []
  | k + 1 => ⟨.comma, ",", 1⟩ :: numTok :: commaArgs k

def argSeq : Nat → List Token
  | 0 => []
  | k + 1 => numTok :: commaArgs k

/-- Token stream of `f(1, 1, ..., 1);` with `n` arguments. -/
def callStmtToks (n : Nat) : List Token :=
  [idTok "f", ⟨.leftParen, "(", 1⟩] ++ argSeq n ++
  [⟨.rightParen, ")", 1⟩, ⟨.semicolon, ";", 1⟩, ⟨.eof, "", 1⟩]

set_option maxRecDepth 40000

/-- C4 counterexample: the claim says a function declaration with more
than 255 parameters is reported but still parsed, yielding the
statement; instead the parse of `fun f(p, ..., p) {}` with 256
parameters returns a `ParseError` with the cap cause and yields no
statement at all. -/
theorem parameter_cap_discards_declaration :
    parsedErrors (parseTokens (funDeclToks 256)) =
      some [⟨1, some "p", "Can't have more than 255 parameters."⟩] := by decide

/-- C4 (amended): exceeding the 255-parameter or 255-argument cap is
reported with the documented message, but as an `Err` that aborts the
enclosing declaration or call parse and propagates to `parse`, which
records the cause and synchronizes, discarding the enclosing statement
instead of yielding it. Concretely: whenever 255 parameters are already
accumulated and another is consumed, the parameter loop returns the cap
error immediately; whenever 255 arguments are accumulated and a comma
follows, the argument loop consumes one more token and returns the cap
error at it; end to end, 256 parameters or arguments turn the whole
parse into a `ParseError` with exactly the cap cause, while 255 of
either still parse successfully. -/
theorem call_and_parameter_caps_abort_parse :
    (∀ (t0 p : Token) (params toks : List Token),
        isIdentTT t0.token_type = true → params.length ≥ 255 →
        paramsLoop t0 params (p :: toks) =
          .err ⟨p.line, some p.lexeme, "Can't have more than 255 parameters."⟩ toks)
    ∧ (∀ (f : Nat) (callee : Expr) (args : List Expr) (t t2 : Token) (toks : List Token),
        args.length ≥ 255 → tokenTypeEq t.token_type .comma = true →
        step (f + 1) (.argsLoop callee args) (t :: t2 :: toks) =
          .err ⟨t2.line, some t2.lexeme, "Can't have more than 255 arguments."⟩ toks)
    ∧ parsedErrors (parseTokens (funDeclToks 256)) =
        some [⟨1, some "p", "Can't have more than 255 parameters."⟩]
    ∧ parsedOkCount (parseTokens (funDeclToks 255)) = some 1
    ∧ parsedErrors (parseTokens (callStmtToks 256)) =
        some [⟨1, some "1", "Can't have more than 255 arguments."⟩]
    ∧ parsedOkCount (parseTokens (callStmtToks 255)) = some 1 := by
  refine ⟨?_, ?_, by decide, by decide, by decide, by decide⟩
  · intro t0 p params toks h1 h2
    rw [paramsLoop.eq_def]
    simp [h1, h2]
  · intro f callee args t t2 toks h1 h2
    rw [step]
    simp [h1, h2]

/-- C4 witness: the two cap-loop conjuncts applied at concrete
inputs. -/
theorem call_and_parameter_caps_abort_parse_witness :
    (isIdentTT (idTok "p").token_type = true
     ∧ (List.replicate 255 (idTok "p")).length ≥ 255
     ∧ paramsLoop (idTok "p") (List.replicate 255 (idTok "p")) [idTok "q"] =
         .err ⟨1, some "q", "Can't have more than 255 parameters."⟩ [])
    ∧ ((List.replicate 255 (Expr.literal .nil)).length ≥ 255
       ∧ tokenTypeEq (⟨.comma, ",", 1⟩ : Token).token_type .comma = true
       ∧ step 1 (.argsLoop (.variable_ (idTok "f")) (List.replicate 255 (Expr.literal .nil)))
           [⟨.comma, ",", 1⟩, numTok] =
           .err ⟨1, some "1", "Can't have more than 255 arguments."⟩ []) :=
  ⟨⟨by decide, by decide,
    call_and_parameter_caps_abort_parse.1 (idTok "p") (idTok "q")
      (List.replicate 255 (idTok "p")) [] (by decide) (by decide)⟩,
   ⟨by decide, by decide,
    call_and_parameter_caps_abort_parse.2.1 0 (.variable_ (idTok "f"))
      (List.replicate 255 (Expr.literal .nil)) ⟨.comma, ",", 1⟩ numTok [] (by decide) (by decide)⟩⟩

/-- IEEE arithmetic on the `F64` model: NaN absorbs. -/
def fadd : F64 → F64 → F64
  | .fin a, .fin b => .fin (a + b)
  | _, _ => .nan

def fsub : F64 → F64 → F64
  | .fin a, .fin b => .fin (a - b)
  | _, _ => .nan

def fmul : F64 → F64 → F64
  | .fin a, .fin b => .fin (a * b)
  | _, _ => .nan

def fdiv : F64 → F64 → F64
  | .fin a, .fin b => .fin (a / b)
  | _, _ => .nan

def fneg : F64 → F64
  | .fin a => .fin (-a)
  | .nan => .nan

/-- IEEE comparisons: any comparison involving NaN is false. -/
def fgt : F64 → F64 → Bool
  | .fin a, .fin b => a > b
  | _, _ => false

def fge : F64 → F64 → Bool
  | .fin a, .fin b => a ≥ b
  | _, _ => false

def flt : F64 → F64 → Bool
  | .fin a, .fin b => a < b
  | _, _ => false

def fle : F64 → F64 → Bool
  | .fin a, .fin b => a ≤ b
  | _, _ => false

/-- `Interpreter::is_truthy`: only `false` and `nil` are falsey (the
source enumerates every other variant as true). -/
def is_truthy : Literal → Bool
  | .boolean b => b
  | .nil => false
  | .identifier _ => true
  | .string _ => true
  | .number _ => true
  | .classV _ => true
  | .instance_ _ => true
  | .nativeFunction _ _ => true
  | .function _ => true

/-- `Interpreter::is_equal`: `Nil == Nil`, `Nil != anything-else`,
otherwise the `PartialEq` of `Literal` (structural, with raw `f64`
equality on numbers — no NaN special case). -/
def is_equal (a b : Literal) : Bool :=
  match a, b with
  | .nil, .nil => true
  | .nil, _ => false
  | left, right => litEq left right

/-- True unless the value is the NaN number (the only value our
`Literal` equality is not reflexive at). -/
def noNaNLit : Literal → Bool
  | .number .nan => false
  | _ => true

def litIsNil : Literal → Bool
  | .nil => true
  | _ => false

theorem loxClassBeq_refl_aux :
    ∀ n, ∀ a : LoxClass, sizeOf a ≤ n → loxClassBeq a a = true := by
  intro n
  induction n with
  | zero => intro a h; cases a; simp at h
  | succ n ih =>
    intro a h
    match a with
    | .mk nm sc ms =>
      simp [loxClassBeq]
      match sc with
      | Option.none => simp [optClassBeq]
      | some c =>
        simp [optClassBeq]
        apply ih
        simp at h
        omega

theorem loxClassBeq_refl (a : LoxClass) : loxClassBeq a a = true :=
  loxClassBeq_refl_aux (sizeOf a) a le_rfl

theorem loxClassBeq_symm_aux :
    ∀ n, ∀ a b : LoxClass, sizeOf a ≤ n → loxClassBeq a b = loxClassBeq b a := by
  intro n
  induction n with
  | zero => intro a b h; cases a; simp at h
  | succ n ih =>
    intro a b h
    match a, b with
    | .mk n1 s1 m1, .mk n2 s2 m2 =>
      simp only [loxClassBeq]
      have hn : (decide (n1 = n2)) = (decide (n2 = n1)) := by
        simp; exact eq_comm
      have hm : (decide (m1 = m2)) = (decide (m2 = m1)) := by
        simp; exact eq_comm
      have hs : optClassBeq s1 s2 = optClassBeq s2 s1 := by
        match s1, s2 with
        | Option.none, Option.none => rfl
        | Option.none, some _ => rfl
        | some _, Option.none => rfl
        | some c1, some c2 =>
          simp only [optClassBeq]
          apply ih
          simp at h
          omega
      rw [hn, hm, hs]

theorem loxClassBeq_symm (a b : LoxClass) : loxClassBeq a b = loxClassBeq b a :=
  loxClassBeq_symm_aux (sizeOf a) a b le_rfl

theorem litEq_symm (a b : Literal) : litEq a b = litEq b a := by
  cases a <;> cases b <;>
    simp [litEq] <;>
    first
    | exact eq_comm
    | exact feq_symm _ _
    | exact loxClassBeq_symm _ _

/-- The `Nil` arms of `is_equal` agree with what structural equality
already says, so `is_equal` coincides with the `Literal` equality. -/
theorem is_equal_eq_litEq (a b : Literal) : is_equal a b = litEq a b := by
  cases a <;> cases b <;> rfl

/-- C7 counterexample: the claim asserts `a == a` for every non-error
value; for the NaN number the interpreter's equality follows raw `f64`
equality, so `NaN == NaN` evaluates to false. -/
theorem is_equal_nan_not_reflexive :
    is_equal (.number .nan) (.number .nan) = false := by decide

/-- C7 (amended): the interpreter's value equality is symmetric for all
pairs of values, and reflexive for every non-error value — including
`Nil` — except the NaN number; `Nil == Nil` is true and `Nil` compared
with any non-`Nil` value is false in both orders; numeric comparison
follows raw `f64` equality with no NaN special case, so
`NaN == NaN` is false. -/
theorem is_equal_characterization :
    (∀ a b : Literal, is_equal a b = is_equal b a)
    ∧ (∀ v : Literal, noNaNLit v = true → is_equal v v = true)
    ∧ is_equal .nil .nil = true
    ∧ (∀ v : Literal, litIsNil v = false →
        is_equal .nil v = false ∧ is_equal v .nil = false)
    ∧ is_equal (.number .nan) (.number .nan) = false := by
  refine ⟨?_, ?_, by decide, ?_, by decide⟩
  · intro a b
    rw [is_equal_eq_litEq, is_equal_eq_litEq]
    exact litEq_symm a b
  · intro v hv
    match v with
    | .nil => rfl
    | .boolean b => simp [is_equal, litEq]
    | .number x =>
      match x with
      | .nan => simp [noNaNLit] at hv
      | .fin q => simp [is_equal, litEq, feq]
    | .string s => simp [is_equal, litEq]
    | .identifier s => simp [is_equal, litEq]
    | .function a => simp [is_equal, litEq]
    | .nativeFunction n k => simp [is_equal, litEq]
    | .classV c => simp [is_equal, litEq]; exact loxClassBeq_refl c
    | .instance_ a => simp [is_equal, litEq]
  · intro v hv
    match v with
    | .nil => simp [litIsNil] at hv
    | .boolean b => exact ⟨rfl, rfl⟩
    | .number x => exact ⟨rfl, rfl⟩
    | .string s => exact ⟨rfl, rfl⟩
    | .identifier s => exact ⟨rfl, rfl⟩
    | .function a => exact ⟨rfl, rfl⟩
    | .nativeFunction n k => exact ⟨rfl, rfl⟩
    | .classV c => exact ⟨rfl, rfl⟩
    | .instance_ a => exact ⟨rfl, rfl⟩

/-- C7 witness: reflexivity applied at a concrete non-NaN value. -/
theorem is_equal_characterization_witness :
    noNaNLit (.number (.fin 2)) = true ∧ is_equal (.number (.fin 2)) (.number (.fin 2)) = true :=
  ⟨by decide, is_equal_characterization.2.1 (.number (.fin 2)) (by decide)⟩

/-- `check_num` from `interpreter.rs` (without the error, which the
call sites raise at their operator token). -/
def check_num : Literal → Literal → Option (F64 × F64)
  | .number a, .number b => some (a, b)
  | _, _ => none

/-- Replace-or-append insertion for string-keyed maps
(`HashMap<String, _>::insert`). -/
def strMapInsert : List (String × Literal) → String → Literal → List (String × Literal)
  | [], n, v => [(n, v)]
  | (k, w) :: rest, n, v =>
    if k = n then (k, v) :: rest else (k, w) :: strMapInsert rest n v

def strNatInsert : List (String × Nat) → String → Nat → List (String × Nat)
  | [], n, v => [(n, v)]
  | (k, w) :: rest, n, v =>
    if k = n then (k, v) :: rest else (k, w) :: strNatInsert rest n v

def listUpdate {α : Type} : List α → Nat → α → List α
  | [], _, _ => []
  | _ :: xs, 0, v => v :: xs
  | x :: xs, n + 1, v => x :: listUpdate xs n v

/-- Modelled from the spec (environment §4.4; `environment.rs` is not
under `src/`): an environment is a name→value map plus an optional
enclosing reference. Environments are shared mutable state
(`Rc<RefCell<Environment>>`), modelled as a heap of records addressed
by index. -/
structure EnvData where
  values : List (String × Literal)
  enclosing : Option Nat

/-- Modelled from the spec (§3 Function; `functions.rs` is not under
`src/`): `LoxFunction { declaration, closure, is_initializer }`, held
behind `Rc` and modelled on a heap. -/
structure FuncData where
  declaration : FunctionStmt
  closure : Nat
  is_initializer : Bool

/-- Modelled from the spec (§3 Instance; `lox_class.rs` is not under
`src/`): `LoxInstance { class, fields }` behind `Rc<RefCell<..>>`,
modelled on a heap. -/
structure InstData where
  klass : LoxClass
  fields : List (String × Literal)

/-- The interpreter state: the environment heap, the current
environment pointer (`Interpreter::environment`), the function and
instance heaps behind the `Rc`s, the binding table
(`Interpreter::locals`), and the `print` output. -/
structure IState where
  envs : List EnvData
  environment : Nat
  funcs : List FuncData
  insts : List InstData
  locals : List (Expr × Nat)
  output : List String

/-- The error/control channel `LoxResult` as produced by the
interpreter: `runtime_error(token, msg)`, `new_error(line, msg)` (used
by the modelled `get_at` failure, which has no token at hand), the
`Return` signal, and a Rust panic. -/
inductive Sig where
  | rerr (t : Token) (message : String)
  | lerr (line : Nat) (message : String)
  | ret (v : Literal)
  | fatal (msg : String)

/-- Output of one evaluation step: statements produce `unit`,
expressions a value, argument lists a list of values. -/
inductive IOut where
  | unit
  | val (v : Literal)
  | vals (l : List Literal)

def liftVal (r : Except Sig Literal) : Except Sig IOut :=
  match r with
  | .ok v => .ok (.val v)
  | .error e => .error e

def allocEnv (st : IState) (d : EnvData) : IState × Nat :=
  ({ st with envs := st.envs ++ [d] }, st.envs.length)

/-- `Environment::wrap(inner)`: a fresh environment enclosing
`inner`. -/
def wrapEnv (st : IState) (inner : Nat) : IState × Nat :=
  allocEnv st ⟨[], some inner⟩

def allocFunc (st : IState) (d : FuncData) : IState × Nat :=
  ({ st with funcs := st.funcs ++ [d] }, st.funcs.length)

def allocInst (st : IState) (d : InstData) : IState × Nat :=
  ({ st with insts := st.insts ++ [d] }, st.insts.length)

/-- `Environment::define`: insert or overwrite in this environment
only (a no-op on a dangling address, which never arises). -/
def envDefine (st : IState) (addr : Nat) (name : String) (v : Literal) : IState :=
  match st.envs.get? addr with
  | some env =>
    { st with envs := listUpdate st.envs addr ({ env with values := strMapInsert env.values name v }) }
  | Option.none => st

/-- `Environment::get(name)`: this environment, else the enclosing
chain, else `Undefined variable '<name>'.`. The fuel (heap size + 1 at
call sites) bounds the chain walk; the spec guarantees the chain is
acyclic. -/
def envGetVar : Nat → IState → Nat → Token → Except Sig Literal
  | 0, _, _, _ => .error (.fatal "environment chain cycle")
  | fl + 1, st, addr, name =>
    match st.envs.get? addr with
    | Option.none => .error (.fatal "dangling environment")
    | some env =>
      match List.lookup name.lexeme env.values with
      | some v => .ok v
      | Option.none =>
        match env.enclosing with
        | some p => envGetVar fl st p name
        | Option.none =>
          .error (.rerr name ("Undefined variable '" ++ name.lexeme ++ "'."))

/-- `Environment::assign(name, value)`: as `get`, but assigns; fails
with `Undefined variable '<name>'.` if no scope in the chain holds the
name. -/
def envAssignVar : Nat → IState → Nat → Token → Literal → Except Sig IState
  | 0, _, _, _, _ => .error (.fatal "environment chain cycle")
  | fl + 1, st, addr, name, v =>
    match st.envs.get? addr with
    | Option.none => .error (.fatal "dangling environment")
    | some env =>
      if (List.lookup name.lexeme env.values).isSome then
        let env2 := { env with values := strMapInsert env.values name.lexeme v }
        .ok ({ st with envs := listUpdate st.envs addr env2 })
      else
        match env.enclosing with
        | some p => envAssignVar fl st p name v
        | Option.none =>
          .error (.rerr name ("Undefined variable '" ++ name.lexeme ++ "'."))

/-- Walk `dist` enclosing links from `addr`. -/
def envAncestor : Nat → IState → Nat → Option Nat
  | 0, _, addr => some addr
  | d + 1, st, addr =>
    match st.envs.get? addr with
    | some env =>
      match env.enclosing with
      | some p => envAncestor d st p
      | Option.none => Option.none
    | Option.none => Option.none

/-- `Environment::get_at(depth, name)`: walk `depth` enclosing links
and read `name` there. The name must exist by the Resolver contract; a
missing name is modelled as the undefined-variable error (`get_at` has
no token, so the error carries line 0), a broken chain as a panic. -/
def get_at (st : IState) (dist : Nat) (addr : Nat) (name : String) : Except Sig Literal :=
  match envAncestor dist st addr with
  | Option.none => .error (.fatal "missing ancestor environment")
  | some a =>
    match st.envs.get? a with
    | Option.none => .error (.fatal "dangling environment")
    | some env =>
      match List.lookup name env.values with
      | some v => .ok v
      | Option.none => .error (.lerr 0 ("Undefined variable '" ++ name ++ "'."))

/-- `Environment::assign_at(depth, name, value)`: symmetric to
`get_at`; the write inserts into the ancestor environment. -/
def assign_at (st : IState) (dist : Nat) (addr : Nat) (name : String) (v : Literal) :
    Except Sig IState :=
  match envAncestor dist st addr with
  | Option.none => .error (.fatal "missing ancestor environment")
  | some a =>
    match st.envs.get? a with
    | Option.none => .error (.fatal "dangling environment")
    | some env =>
      let env2 := { env with values := strMapInsert env.values name v }
      .ok ({ st with envs := listUpdate st.envs a env2 })

/-- `LoxClass::find_method` (modelled from the spec §4.5: search the
class, then its superclass chain). -/
def findMethod : LoxClass → String → Option Nat
  | .mk _ sc methods, n =>
    match List.lookup n methods with
    | some fi => some fi
    | Option.none =>
      match sc with
      | some c => findMethod c n
      | Option.none => Option.none

/-- Method binding (modelled from the spec §4.5): a new function whose
closure is a fresh environment enclosing the method's closure and
binding `this` to the instance. `none` is a dangling function address
(never arises). -/
def bindMethod (st : IState) (fi : Nat) (inst : Nat) : Option (IState × Nat) :=
  match st.funcs.get? fi with
  | Option.none => Option.none
  | some fd =>
    let (st1, ea) := allocEnv st ⟨[("this", .instance_ inst)], some fd.closure⟩
    some (allocFunc st1 { fd with closure := ea })

/-- The method-construction loop of the `Stmt::Class` arm of
`execute`: each `Stmt::Function` member becomes a `LoxFunction` closing
over the current environment with `is_initializer = (name == "init")`;
any other member statement is `unreachable!` (`none`). -/
def buildMethods : List Stmt → Nat → IState → List (String × Nat) →
    Option (IState × List (String × Nat))
  | [], _, st, acc => some (st, acc)
  | .function nm ps bd :: rest, env, st, acc =>
    let (st2, fi) := allocFunc st ⟨⟨nm, ps, bd⟩, env, nm.lexeme == "init"⟩
    buildMethods rest env st2 (strNatInsert acc nm.lexeme fi)
  | _ :: _, _, _, _ => Option.none

/-- Display form of a number (modelled from the spec §4.5; no claim
depends on number formatting, so the fraction case is schematic). -/
def displayNum : F64 → String
  | .nan => "NaN"
  | .fin q => if q.den = 1 then toString q.num else toString q

/-- Display form of values (modelled from the spec §4.5; used only by
`print`, which no claim inspects). -/
def displayLit (st : IState) : Literal → String
  | .nil => "nil"
  | .boolean b => if b then "true" else "false"
  | .number n => displayNum n
  | .string s => s
  | .identifier s => s
  | .function fi =>
    match st.funcs.get? fi with
    | some fd => "<fn " ++ fd.declaration.name.lexeme ++ ">"
    | Option.none => "<fn>"
  | .nativeFunction n _ => "<fn " ++ n ++ ">"
  | .classV (.mk n _ _) => n
  | .instance_ a =>
    match st.insts.get? a with
    | some i =>
      match i.klass with
      | .mk n _ _ => "<" ++ n ++ " instance>"
    | Option.none => "<instance>"

/-- Arity of calling a class: the arity of `init` if present, else 0
(`none` only on a dangling function address). -/
def classArity (st : IState) (c : LoxClass) : Option Nat :=
  match findMethod c "init" with
  | some fi =>
    match st.funcs.get? fi with
    | some fd => some fd.declaration.params.length
    | Option.none => Option.none
  | Option.none => some 0

/-- Define the parameters by name in the call environment. -/
def defineParams : IState → Nat → List Token → List Literal → IState
  | st, _, [], _ => st
  | st, _, _ :: _, [] => st
  | st, ea, p :: ps, v :: vs => defineParams (envDefine st ea p.lexeme v) ea ps vs

/-- The `Plus` arm of binary evaluation. -/
def plusValues (op : Token) (lv rv : Literal) : Except Sig IOut :=
  match lv, rv with
  | .string s1, .string s2 => .ok (.val (.string (s1 ++ s2)))
  | .string s, .number n => .ok (.val (.string (s ++ displayNum n)))
  | .number n, .string s => .ok (.val (.string (displayNum n ++ s)))
  | .number a, .number b => .ok (.val (.number (fadd a b)))
  | _, _ => .error (.rerr op "Operands must be two numbers or two strings.")

/-- Check both operands are numbers (`check_num`) and combine; the
error is `Operands must be numbers.` at the operator. -/
def numBin (op : Token) (lv rv : Literal) (k : F64 → F64 → Except Sig IOut) :
    Except Sig IOut :=
  match check_num lv rv with
  | some (a, b) => k a b
  | Option.none => .error (.rerr op "Operands must be numbers.")

/-- The interpreter's mutually recursive entry points
(`interpreter.rs`), one constructor per source function or source-level
loop: statement execution (`execute`, with `classCont` the part of the
`Stmt::Class` arm after the superclass value is known), statement
sequences (the `try_for_each` of `execute_block` and `interpret`),
`execute_block` itself, expression evaluation, the argument-evaluation
loop of `Expr::Call`, the `while` loop, and the calls of user functions
and classes (modelled from the spec §4.5; `functions.rs` and
`lox_class.rs` are not under `src/`). -/
inductive ICall where
  | exec (s : Stmt)
  | execSeq (ss : List Stmt)
  | execBlock (ss : List Stmt) (env : Nat)
  | evalE (e : Expr)
  | evalArgs (es : List Expr) (acc : List Literal)
  | whileStep (condV : Literal) (cond : Expr) (body : Stmt)
  | classCont (name : Token) (methods : List Stmt) (sc : Option LoxClass)
  | callFunction (fi : Nat) (args : List Literal)
  | callClass (cls : LoxClass) (args : List Literal)

/-- One-step interpreter for `interpreter.rs`: `iStep fuel call st`
returns `none` only on fuel exhaustion (a diverging Lox program);
otherwise the updated state and the `Result`: `ok` on normal
completion, or a `Sig` — a `RuntimeError`, a `Return` signal, or a Rust
panic (`fatal`) — exactly where the source returns `Err`, `todo!`s or
unwraps. -/
def iStep : Nat → ICall → IState → Option (IState × Except Sig IOut)
  | 0, _, _ => none
  | f + 1, c, st =>
    match c with
    | .exec s =>
      match s with
      | .block stmts =>
        let (st1, a) := wrapEnv st st.environment
        iStep f (.execBlock stmts a) st1
      | .class_ name methods superclass =>
        match superclass with
        | some sc =>
          match iStep f (.evalE (.variable_ sc.name)) st with
          | none => none
          | some (st1, .ok (.val v)) =>
            match v with
            | .classV cv => iStep f (.classCont name methods (some cv)) st1
            | _ => some (st1, .error (.rerr sc.name "Superclass must be a class."))
          | some (st1, .ok _) => some (st1, .error (.fatal "unexpected result"))
          | some (st1, .error e) => some (st1, .error e)
        | Option.none => iStep f (.classCont name methods Option.none) st
      | .expression e =>
        match iStep f (.evalE e) st with
        | some (st1, .ok _) => some (st1, .ok .unit)
        | r => r
      | .function name params body =>
        let (st1, fi) := allocFunc st ⟨⟨name, params, body⟩, st.environment, false⟩
        some (envDefine st1 st1.environment name.lexeme (.function fi), .ok .unit)
      | .if_ cnd t e =>
        match iStep f (.evalE cnd) st with
        | some (st1, .ok (.val v)) =>
          if is_truthy v then iStep f (.exec t) st1
          else
            match e with
            | some eb => iStep f (.exec eb) st1
            | Option.none => some (st1, .ok .unit)
        | some (st1, .ok _) => some (st1, .error (.fatal "unexpected result"))
        | r => r
      | .print e =>
        match iStep f (.evalE e) st with
        | some (st1, .ok (.val v)) =>
          some ({ st1 with output := st1.output ++ [displayLit st1 v] }, .ok .unit)
        | some (st1, .ok _) => some (st1, .error (.fatal "unexpected result"))
        | r => r
      | .return_ _ value =>
        match value with
        | some v =>
          match iStep f (.evalE v) st with
          | some (st1, .ok (.val x)) => some (st1, .error (.ret x))
          | some (st1, .ok _) => some (st1, .error (.fatal "unexpected result"))
          | r => r
        | Option.none => some (st, .error (.ret .nil))
      | .var name initializer =>
        match initializer with
        | some i =>
          match iStep f (.evalE i) st with
          | some (st1, .ok (.val v)) =>
            some (envDefine st1 st1.environment name.lexeme v, .ok .unit)
          | some (st1, .ok _) => some (st1, .error (.fatal "unexpected result"))
          | r => r
        | Option.none => some (envDefine st st.environment name.lexeme .nil, .ok .unit)
      | .while_ cnd body =>
        match iStep f (.evalE cnd) st with
        | some (st1, .ok (.val v)) => iStep f (.whileStep v cnd body) st1
        | some (st1, .ok _) => some (st1, .error (.fatal "unexpected result"))
        | r => r
    | .execSeq ss =>
      match ss with
      | [] => some (st, .ok .unit)
      | s :: rest =>
        match iStep f (.exec s) st with
        | some (st1, .ok _) => iStep f (.execSeq rest) st1
        | r => r
    | .execBlock ss env =>
      match iStep f (.execSeq ss) { st with environment := env } with
      | none => none
      | some (st2, r) => some ({ st2 with environment := st.environment }, r)
    | .whileStep v cnd body =>
      if is_truthy v then
        match iStep f (.exec body) st with
        | some (st1, .ok _) =>
          match iStep f (.evalE cnd) st1 with
          | some (st2, .ok (.val v2)) => iStep f (.whileStep v2 cnd body) st2
          | some (st2, .ok _) => some (st2, .error (.fatal "unexpected result"))
          | r => r
        | r => r
      else some (st, .ok .unit)
    | .classCont name methods sc =>
      let st1 := envDefine st st.environment name.lexeme .nil
      let st2 :=
        match sc with
        | some c =>
          let (stw, a) := wrapEnv st1 st1.environment
          envDefine ({ stw with environment := a }) a "super" (.classV c)
        | Option.none => st1
      match buildMethods methods st2.environment st2 [] with
      | Option.none => some (st2, .error (.fatal "unreachable"))
      | some (st3, ms) =>
        let st4 :=
          match sc with
          | some _ =>
            match st3.envs.get? st3.environment with
            | some env =>
              match env.enclosing with
              | some p => some ({ st3 with environment := p })
              | Option.none => Option.none
            | Option.none => Option.none
          | Option.none => some st3
        match st4 with
        | Option.none => some (st3, .error (.fatal "called Option::unwrap on None"))
        | some st5 =>
          let cls := LoxClass.mk name.lexeme sc ms
          match envAssignVar (st5.envs.length + 1) st5 st5.environment name (.classV cls) with
          | .ok st6 => some (st6, .ok .unit)
          | .error e => some (st5, .error e)
    | .evalArgs es acc =>
      match es with
      | [] => some (st, .ok (.vals acc))
      | e :: rest =>
        match iStep f (.evalE e) st with
        | some (st1, .ok (.val v)) => iStep f (.evalArgs rest (acc ++ [v])) st1
        | some (st1, .ok _) => some (st1, .error (.fatal "unexpected result"))
        | r => r
    | .callFunction fi args =>
      match st.funcs.get? fi with
      | Option.none => some (st, .error (.fatal "dangling function"))
      | some fd =>
        let (st1, ea) := wrapEnv st fd.closure
        let st2 := defineParams st1 ea fd.declaration.params args
        match iStep f (.execBlock fd.declaration.body ea) st2 with
        | none => none
        | some (st3, .ok _) =>
          if fd.is_initializer then some (st3, liftVal (get_at st3 0 fd.closure "this"))
          else some (st3, .ok (.val .nil))
        | some (st3, .error (.ret v)) =>
          if fd.is_initializer then some (st3, liftVal (get_at st3 0 fd.closure "this"))
          else some (st3, .ok (.val v))
        | some (st3, .error e) => some (st3, .error e)
    | .callClass cls args =>
      let (st1, ia) := allocInst st ⟨cls, []⟩
      match findMethod cls "init" with
      | some fi =>
        match bindMethod st1 fi ia with
        | Option.none => some (st1, .error (.fatal "dangling function"))
        | some (st2, bfi) =>
          match iStep f (.callFunction bfi args) st2 with
          | none => none
          | some (st3, .ok _) => some (st3, .ok (.val (.instance_ ia)))
          | some (st3, .error e) => some (st3, .error e)
      | Option.none => some (st1, .ok (.val (.instance_ ia)))
    | .evalE e =>
      match e with
      | .binary l op r =>
        match iStep f (.evalE l) st with
        | some (st1, .ok (.val lv)) =>
          match iStep f (.evalE r) st1 with
          | some (st2, .ok (.val rv)) =>
            match op.token_type with
            | .minus => some (st2, numBin op lv rv (fun a b => .ok (.val (.number (fsub a b)))))
            | .slash =>
              some (st2, numBin op lv rv (fun a b =>
                if feq b (.fin 0) then .error (.rerr op "Division by zero")
                else .ok (.val (.number (fdiv a b)))))
            | .star => some (st2, numBin op lv rv (fun a b => .ok (.val (.number (fmul a b)))))
            | .greater => some (st2, numBin op lv rv (fun a b => .ok (.val (.boolean (fgt a b)))))
            | .greaterEqual =>
              some (st2, numBin op lv rv (fun a b => .ok (.val (.boolean (fge a b)))))
            | .less => some (st2, numBin op lv rv (fun a b => .ok (.val (.boolean (flt a b)))))
            | .lessEqual => some (st2, numBin op lv rv (fun a b => .ok (.val (.boolean (fle a b)))))
            | .bangEqual => some (st2, .ok (.val (.boolean (!is_equal lv rv))))
            | .equalEqual => some (st2, .ok (.val (.boolean (is_equal lv rv))))
            | .plus => some (st2, plusValues op lv rv)
            | _ => some (st2, .error (.fatal "Invalid operator?"))
          | some (st2, .ok _) => some (st2, .error (.fatal "unexpected result"))
          | r2 => r2
        | some (st1, .ok _) => some (st1, .error (.fatal "unexpected result"))
        | r1 => r1
      | .call callee paren args =>
        match iStep f (.evalE callee) st with
        | some (st1, .ok (.val cv)) =>
          match iStep f (.evalArgs args []) st1 with
          | some (st2, .ok (.vals argvs)) =>
            match cv with
            | .identifier _ | .boolean _ | .nil | .string _ | .instance_ _ | .number _ =>
              some (st2, .error (.rerr paren "Can only call functions and classes."))
            | .function fi =>
              match st2.funcs.get? fi with
              | Option.none => some (st2, .error (.fatal "dangling function"))
              | some fd =>
                if argvs.length ≠ fd.declaration.params.length then
                  some (st2, .error (.rerr paren
                    ("Expected " ++ toString fd.declaration.params.length ++
                     " arguments but got " ++ toString argvs.length ++ ".")))
                else iStep f (.callFunction fi argvs) st2
            | .nativeFunction _ _ =>
              if argvs.length ≠ 0 then
                some (st2, .error (.rerr paren
                  ("Expected 0 arguments but got " ++ toString argvs.length ++ ".")))
              else some (st2, .ok (.val (.number (.fin 0))))
            | .classV cls =>
              match classArity st2 cls with
              | Option.none => some (st2, .error (.fatal "dangling function"))
              | some ar =>
                if argvs.length ≠ ar then
                  some (st2, .error (.rerr paren
                    ("Expected " ++ toString ar ++ " arguments but got " ++
                     toString argvs.length ++ ".")))
                else iStep f (.callClass cls argvs) st2
          | some (st2, .ok _) => some (st2, .error (.fatal "unexpected result"))
          | r2 => r2
        | some (st1, .ok _) => some (st1, .error (.fatal "unexpected result"))
        | r1 => r1
      | .grouping g => iStep f (.evalE g) st
      | .literal v => some (st, .ok (.val v))
      | .unary op r =>
        match iStep f (.evalE r) st with
        | some (st1, .ok (.val rv)) =>
          match op.token_type with
          | .minus =>
            match rv with
            | .number n => some (st1, .ok (.val (.number (fneg n))))
            | _ => some (st1, .error (.rerr op "Operand must be a number."))
          | .bang => some (st1, .ok (.val (.boolean (!is_truthy rv))))
          | _ => some (st1, .error (.fatal "Invalid operator?"))
        | some (st1, .ok _) => some (st1, .error (.fatal "unexpected result"))
        | r1 => r1
      | .conditional cnd l r =>
        match iStep f (.evalE cnd) st with
        | some (st1, .ok (.val v)) =>
          if is_truthy v then iStep f (.evalE l) st1 else iStep f (.evalE r) st1
        | some (st1, .ok _) => some (st1, .error (.fatal "unexpected result"))
        | r1 => r1
      | .variable_ n =>
        match localsGet st.locals (.variable_ n) with
        | some d => some (st, liftVal (get_at st d st.environment n.lexeme))
        | Option.none => some (st, liftVal (envGetVar (st.envs.length + 1) st st.environment n))
      | .assign n v =>
        match iStep f (.evalE v) st with
        | some (st1, .ok (.val value)) =>
          match localsGet st1.locals (.assign n v) with
          | some d =>
            match assign_at st1 d st1.environment n.lexeme value with
            | .ok st2 => some (st2, .ok (.val value))
            | .error e => some (st1, .error e)
          | Option.none =>
            match envAssignVar (st1.envs.length + 1) st1 st1.environment n value with
            | .ok st2 => some (st2, .ok (.val value))
            | .error e => some (st1, .error e)
        | some (st1, .ok _) => some (st1, .error (.fatal "unexpected result"))
        | r1 => r1
      | .logical l op r =>
        match iStep f (.evalE l) st with
        | some (st1, .ok (.val lv)) =>
          if tokenTypeEq op.token_type .or then
            if is_truthy lv then some (st1, .ok (.val lv)) else iStep f (.evalE r) st1
          else
            if !is_truthy lv then some (st1, .ok (.val lv)) else iStep f (.evalE r) st1
        | some (st1, .ok _) => some (st1, .error (.fatal "unexpected result"))
        | r1 => r1
      | .get name obj =>
        match iStep f (.evalE obj) st with
        | some (st1, .ok (.val ov)) =>
          match ov with
          | .instance_ a =>
            match st1.insts.get? a with
            | Option.none => some (st1, .error (.fatal "dangling instance"))
            | some inst =>
              match List.lookup name.lexeme inst.fields with
              | some v => some (st1, .ok (.val v))
              | Option.none =>
                match findMethod inst.klass name.lexeme with
                | some fi =>
                  match bindMethod st1 fi a with
                  | some (st2, nfi) => some (st2, .ok (.val (.function nfi)))
                  | Option.none => some (st1, .error (.fatal "dangling function"))
                | Option.none =>
                  some (st1, .error (.rerr name
                    ("Undefined property '" ++ name.lexeme ++ "'.")))
          | _ => some (st1, .error (.rerr name "Only instances have properties."))
        | some (st1, .ok _) => some (st1, .error (.fatal "unexpected result"))
        | r1 => r1
      | .set obj name v =>
        match iStep f (.evalE obj) st with
        | some (st1, .ok (.val ov)) =>
          match ov with
          | .instance_ a =>
            match iStep f (.evalE v) st1 with
            | some (st2, .ok (.val value)) =>
              match st2.insts.get? a with
              | Option.none => some (st2, .error (.fatal "dangling instance"))
              | some inst =>
                let inst2 := { inst with fields := strMapInsert inst.fields name.lexeme value }
                some ({ st2 with insts := listUpdate st2.insts a inst2 }, .ok (.val value))
            | some (st2, .ok _) => some (st2, .error (.fatal "unexpected result"))
            | r2 => r2
          | _ => some (st1, .error (.rerr name "Only instances have fields."))
        | some (st1, .ok _) => some (st1, .error (.fatal "unexpected result"))
        | r1 => r1
      | .super_ kw mth =>
        match localsGet st.locals (.super_ kw mth) with
        | Option.none => some (st, .error (.fatal "called Option::unwrap on None"))
        | some d =>
          match get_at st d st.environment "super" with
          | .error e => some (st, .error e)
          | .ok sv =>
            match sv with
            | .classV c =>
              if d = 0 then some (st, .error (.fatal "attempt to subtract with overflow"))
              else
                match get_at st (d - 1) st.environment "this" with
                | .error e => some (st, .error e)
                | .ok tv =>
                  match tv with
                  | .instance_ a =>
                    match findMethod c mth.lexeme with
                    | some fi =>
                      match bindMethod st fi a with
                      | some (st2, nfi) => some (st2, .ok (.val (.function nfi)))
                      | Option.none => some (st, .error (.fatal "dangling function"))
                    | Option.none =>
                      some (st, .error (.rerr mth
                        ("Undefined property '" ++ mth.lexeme ++ "'.")))
                  | _ => some (st, .error (.fatal "not yet implemented"))
            | _ => some (st, .error (.fatal "not yet implemented"))
      | .this_ kw =>
        match localsGet st.locals (.this_ kw) with
        | some d => some (st, liftVal (get_at st d st.environment kw.lexeme))
        | Option.none => some (st, liftVal (envGetVar (st.envs.length + 1) st st.environment kw))

/-- C9: `execute_block` swaps in the block environment, runs the
statements, and restores the saved environment pointer unconditionally
before returning the loop's result — so on every exit (normal
completion, a `RuntimeError`, or a `Return` signal from any contained
statement) the interpreter's current-environment pointer equals the one
current on entry. -/
theorem execute_block_restores_environment :
    ∀ (f : Nat) (ss : List Stmt) (env : Nat) (st st' : IState) (r : Except Sig IOut),
      iStep f (.execBlock ss env) st = some (st', r) → st'.environment = st.environment := by
  intro f ss env st st' r h
  match f with
  | 0 => simp [iStep] at h
  | g + 1 =>
    rw [iStep] at h
    cases hx : iStep g (.execSeq ss) { st with environment := env } with
    | none => rw [hx] at h; exact absurd h (by simp)
    | some p =>
      obtain ⟨st2, r2⟩ := p
      rw [hx] at h
      simp only [Option.some.injEq, Prod.mk.injEq] at h
      rw [← h.1]

/-- Interpreter state with a single (global) environment. -/
def ist0 : IState := ⟨[⟨[], Option.none⟩], 0, [], [], [], []⟩

/-- C9 witness: the theorem applied at an empty block in the initial
state. -/
theorem execute_block_restores_environment_witness :
    iStep 2 (.execBlock [] 0) ist0 = some (ist0, .ok .unit)
    ∧ ist0.environment = ist0.environment :=
  ⟨rfl, execute_block_restores_environment 2 [] 0 ist0 ist0 (.ok .unit) rfl⟩

def superTok : Token := ⟨.super, "super", 7⟩

def methTok : Token := ⟨.identifier "m", "m", 7⟩

/-- A `super.m` expression. -/
def superE : Expr := .super_ superTok methTok

/-- State in which the binding table records depth 0 for `superE` and
the current (global) environment does not bind `super`. -/
def stSuper0 : IState := ⟨[⟨[], Option.none⟩], 0, [], [], [(superE, 0)], []⟩

/-- State in which the binding table records depth 0 for `superE` and
the current environment binds `super` to a class. -/
def stSuperCls : IState :=
  ⟨[⟨[("super", .classV (.mk "A" Option.none []))], Option.none⟩], 0, [], [], [(superE, 0)], []⟩

/-- C10 counterexample: the claim says evaluation of a `Super`
expression with recorded depth 0 panics; in a state where the depth-0
`super` lookup fails, the `?` on `get_at` propagates a runtime error
before the `distance - 1` underflow is reached, so evaluation returns
an error rather than panicking. -/
theorem super_depth_zero_can_return_runtime_error :
    iStep 1 (.evalE superE) stSuper0 =
      some (stSuper0, .error (.lerr 0 "Undefined variable 'super'.")) := rfl

/-- C10 (amended): evaluating a `Super` expression is total only if the
binding table holds its depth: with no recorded depth the interpreter
panics on `locals.get(expr).unwrap()`, in every state; with recorded
depth 0, whenever the depth-0 `super` lookup succeeds with a class
value, the `this` lookup computes `0 - 1` on `usize` and evaluation
panics via the underflow — but if that lookup fails first, a
`RuntimeError` is returned instead of a panic (third conjunct), so
depth 0 does not panic unconditionally. -/
theorem super_eval_totality_characterization :
    (∀ (f : Nat) (st : IState) (kw mth : Token),
        localsGet st.locals (.super_ kw mth) = Option.none →
        iStep (f + 1) (.evalE (.super_ kw mth)) st =
          some (st, .error (.fatal "called Option::unwrap on None")))
    ∧ (∀ (f : Nat) (st : IState) (kw mth : Token) (c : LoxClass),
        localsGet st.locals (.super_ kw mth) = some 0 →
        get_at st 0 st.environment "super" = .ok (.classV c) →
        iStep (f + 1) (.evalE (.super_ kw mth)) st =
          some (st, .error (.fatal "attempt to subtract with overflow")))
    ∧ iStep 1 (.evalE superE) stSuper0 =
        some (stSuper0, .error (.lerr 0 "Undefined variable 'super'.")) := by
  refine ⟨?_, ?_, rfl⟩
  · intro f st kw mth h
    rw [iStep]
    simp [h]
  · intro f st kw mth c h1 h2
    rw [iStep]
    simp [h1, h2]

/-- C10 witness: both panic modes applied at concrete states. -/
theorem super_eval_totality_characterization_witness :
    (localsGet ist0.locals (.super_ superTok methTok) = Option.none
     ∧ iStep 1 (.evalE (.super_ superTok methTok)) ist0 =
         some (ist0, .error (.fatal "called Option::unwrap on None")))
    ∧ (localsGet stSuperCls.locals (.super_ superTok methTok) = some 0
       ∧ get_at stSuperCls 0 stSuperCls.environment "super" =
           .ok (.classV (.mk "A" Option.none []))
       ∧ iStep 1 (.evalE (.super_ superTok methTok)) stSuperCls =
           some (stSuperCls, .error (.fatal "attempt to subtract with overflow"))) :=
  ⟨⟨rfl, super_eval_totality_characterization.1 0 ist0 superTok methTok rfl⟩,
   ⟨rfl, rfl,
    super_eval_totality_characterization.2.1 0 stSuperCls superTok methTok
      (.mk "A" Option.none []) rfl rfl⟩⟩
